import Mathlib

/-!
# Verification of the wishlist engine (`assets/wishlist.js`)

A shallow embedding of the client-side wishlist engine of the theme.
JavaScript values that flow through the persisted store are modelled by a
JSON-like inductive type `Json`; the JS value `undefined` is modelled by
`Option Json` with `none` for `undefined`.  Machine side effects
(`localStorage`, notifications, the save-triggered UI refresh) are modelled
by explicit state passing on `WishlistState`.
-/

namespace Wishlist

/-- JSON-like JavaScript values.  `undefined` is modelled separately as
`Option Json` (with `none` for `undefined`) because `undefined` cannot occur
inside a parsed JSON document, only as the result of a missing field. -/
inductive Json where
  | null
  | bool (b : Bool)
  | num (n : Int)
  | str (s : String)
  | arr (elems : List Json)
  | obj (fields : List (String × Json))
deriving Repr

mutual

/-- Decidable equality for `Json` (needed to run the model on inputs). -/
def Json.beq : Json → Json → Bool
  | .null, .null => true
  | .bool a, .bool b => a == b
  | .num a, .num b => a == b
  | .str a, .str b => a == b
  | .arr a, .arr b => Json.beqList a b
  | .obj a, .obj b => Json.beqFields a b
  | _, _ => false

def Json.beqList : List Json → List Json → Bool
  | [], [] => true
  | a :: as, b :: bs => Json.beq a b && Json.beqList as bs
  | _, _ => false

def Json.beqFields : List (String × Json) → List (String × Json) → Bool
  | [], [] => true
  | (k, a) :: as, (l, b) :: bs => k == l && Json.beq a b && Json.beqFields as bs
  | _, _ => false

end

mutual

theorem Json.beq_refl : (j : Json) → Json.beq j j = true
  | .null => rfl
  | .bool b => by simp [Json.beq]
  | .num n => by simp [Json.beq]
  | .str s => by simp [Json.beq]
  | .arr xs => by simp [Json.beq, Json.beqList_refl xs]
  | .obj fs => by simp [Json.beq, Json.beqFields_refl fs]

theorem Json.beqList_refl : (l : List Json) → Json.beqList l l = true
  | [] => rfl
  | a :: as => by simp [Json.beqList, Json.beq_refl a, Json.beqList_refl as]

theorem Json.beqFields_refl : (l : List (String × Json)) → Json.beqFields l l = true
  | [] => rfl
  | (k, a) :: as => by
      simp [Json.beqFields, Json.beq_refl a, Json.beqFields_refl as]

end

mutual

theorem Json.eq_of_beq : {a b : Json} → Json.beq a b = true → a = b
  | .null, .null, _ => rfl
  | .bool _, .bool _, h => by simp [Json.beq] at h; simp [h]
  | .num _, .num _, h => by simp [Json.beq] at h; simp [h]
  | .str _, .str _, h => by simp [Json.beq] at h; simp [h]
  | .arr as, .arr bs, h => by
      simp only [Json.beq] at h
      exact congrArg Json.arr (Json.eqList_of_beq h)
  | .obj as, .obj bs, h => by
      simp only [Json.beq] at h
      exact congrArg Json.obj (Json.eqFields_of_beq h)

theorem Json.eqList_of_beq : {as bs : List Json} → Json.beqList as bs = true → as = bs
  | [], [], _ => rfl
  | a :: as, b :: bs, h => by
      simp only [Json.beqList, Bool.and_eq_true] at h
      rw [Json.eq_of_beq h.1, Json.eqList_of_beq h.2]

theorem Json.eqFields_of_beq :
    {as bs : List (String × Json)} → Json.beqFields as bs = true → as = bs
  | [], [], _ => rfl
  | (k, a) :: as, (l, b) :: bs, h => by
      simp only [Json.beqFields, Bool.and_eq_true, beq_iff_eq] at h
      rw [h.1.1, Json.eq_of_beq h.1.2, Json.eqFields_of_beq h.2]

end

instance : DecidableEq Json := fun a b =>
  if h : Json.beq a b = true then
    .isTrue (Json.eq_of_beq h)
  else
    .isFalse (fun hab => h (hab ▸ Json.beq_refl a))

/-- JS truthiness of a JSON value (`NaN` does not arise in the model). -/
def jsTruthy : Json → Bool
  | .null => false
  | .bool b => b
  | .num n => n != 0
  | .str s => s != ""
  | .arr _ => true
  | .obj _ => true

/-- `typeof v === 'object'` for a JSON value (true for `null`, arrays and
objects in JavaScript). -/
def jsTypeofObject : Json → Bool
  | .null => true
  | .arr _ => true
  | .obj _ => true
  | _ => false

/-- Property access `j[key]`: `none` models the JS result `undefined`. -/
def getField (j : Json) (key : String) : Option Json :=
  match j with
  | .obj fields => (fields.find? (fun f => f.1 == key)).map (·.2)
  | _ => none

mutual

/-- JS string coercion `String(v)`.  An array stringifies as the
comma-separated join of its elements, where `null` elements join as the
empty string; a plain object stringifies as `[object Object]`. -/
def jsToString : Json → String
  | .null => "null"
  | .bool b => if b then "true" else "false"
  | .num n => toString n
  | .str s => s
  | .arr xs => String.intercalate "," (jsToStringElems xs)
  | .obj _ => "[object Object]"

/-- `Array.prototype.join(',')` element coercion: `null` joins as `''`. -/
def jsToStringElems : List Json → List String
  | [] => []
  | x :: rest =>
    (match x with
     | .null => ""
     | j => jsToString j) :: jsToStringElems rest

end

/-- `String(v)` for a possibly-`undefined` value. -/
def jsToStringU : Option Json → String
  | none => "undefined"
  | some j => jsToString j

/-- JS truthiness for a possibly-`undefined` value. -/
def jsTruthyU : Option Json → Bool
  | none => false
  | some j => jsTruthy j

/-- Nullish coalescing `v ?? d` on a possibly-`undefined` value. -/
def jsNullish (v : Option Json) (d : Json) : Json :=
  match v with
  | none => d
  | some .null => d
  | some j => j

/-- JS `a || b` on strings (`a` when non-empty, else `b`). -/
def jsOrString (a b : String) : String :=
  if a == "" then b else a

/-- An in-memory wishlist record, in the normalized shape produced by
`loadFromStorage` (string fields are honest strings; `id`, `variant_id` and
`added_at` are carried through as raw JS values, possibly `undefined`). -/
structure WishlistItem where
  id : Option Json
  title : String
  image : String
  url : String
  price : String
  variant_id : Option Json
  available : Bool
  handle : String
  added_at : Option Json
deriving Repr, DecidableEq

/-- The per-entry filter of `loadFromStorage`:
`rawItem && typeof rawItem === 'object'` keeps truthy values whose JS
`typeof` is `'object'` (objects and arrays; `null` is falsy). -/
def isStoredRecord (j : Json) : Bool :=
  jsTruthy j && jsTypeofObject j

/-- The per-entry normalization of `loadFromStorage` (wishlist.js 889-907):
`available` defaults to `true` when missing, otherwise it is
`v === true || v === 'true'`; `title`/`image`/`url`/`price` are
`String(v ?? '')`; `handle` is kept only when it is a string, else `''`. -/
def normalizeStoredItem (j : Json) : WishlistItem :=
  let availableValue :=
    match getField j "available" with
    | none => true
    | some v => v == Json.bool true || v == Json.str "true"
  { id := getField j "id"
    title := jsToString (jsNullish (getField j "title") (.str ""))
    image := jsToString (jsNullish (getField j "image") (.str ""))
    url := jsToString (jsNullish (getField j "url") (.str ""))
    price := jsToString (jsNullish (getField j "price") (.str ""))
    variant_id := getField j "variant_id"
    available := availableValue
    handle :=
      match getField j "handle" with
      | some (.str s) => s
      | _ => ""
    added_at := getField j "added_at" }

/-- The raw persisted payload as seen by `loadFromStorage`: the stored
string may be absent (falsy), `JSON.parse` may throw, or it yields a parsed
JSON document. -/
inductive RawStorage where
  | absent
  | parseError
  | parsed (j : Json)
deriving Repr, DecidableEq

/-- `loadFromStorage` (wishlist.js 882-915): absent storage loads as `[]`;
a parse failure is caught and yields `[]`; a non-array document yields `[]`;
an array document keeps the entries that are truthy objects and normalizes
each one. -/
def loadFromStorage : RawStorage → List WishlistItem
  | .absent => []
  | .parseError => []
  | .parsed (.arr items) => (items.filter isStoredRecord).map normalizeStoredItem
  | .parsed _ => []

/-- `JSON.stringify` of one in-memory item, as an already-parsed document:
properties whose value is `undefined` are omitted by `JSON.stringify`. -/
def encodeStoredItem (it : WishlistItem) : Json :=
  .obj (
    (match it.id with | some v => [("id", v)] | none => []) ++
    [("title", .str it.title), ("image", .str it.image),
     ("url", .str it.url), ("price", .str it.price)] ++
    (match it.variant_id with | some v => [("variant_id", v)] | none => []) ++
    [("available", .bool it.available), ("handle", .str it.handle)] ++
    (match it.added_at with | some v => [("added_at", v)] | none => []))

/-- The engine state: the in-memory list, the persisted payload, the
notifications shown so far (newest last), and a counter of save events
(each save also refreshes counters/buttons and dispatches an update event,
so the counter tracks those dependent updates). -/
structure WishlistState where
  items : List WishlistItem
  storage : RawStorage
  notifications : List String
  saveEvents : Nat
deriving Repr, DecidableEq

/-- `saveToStorage` (wishlist.js 917-929): serializes the in-memory list
into storage, then triggers the dependent updates (modelled by the event
counter).  The success path is modelled; on a write failure the items list
is unchanged either way. -/
def saveToStorage (s : WishlistState) : WishlistState :=
  { s with
    storage := .parsed (.arr (s.items.map encodeStoredItem))
    saveEvents := s.saveEvents + 1 }

/-- `contains` (wishlist.js 1398-1401): falsy product ids are never
contained; otherwise membership is by `String`-coerced id equality. -/
def contains (items : List WishlistItem) (productId : Option Json) : Bool :=
  if jsTruthyU productId = false then false
  else items.any fun it => jsToStringU it.id == jsToStringU productId

/-- The record pushed by `add` (wishlist.js 1420-1430): the product's
fields with `handle: product.handle || ''` and a fresh `added_at`. -/
def addedItem (product : WishlistItem) (now : String) : WishlistItem :=
  { id := product.id
    title := product.title
    image := product.image
    url := product.url
    price := product.price
    variant_id := product.variant_id
    available := product.available
    handle := jsOrString product.handle ""
    added_at := some (.str now) }

/-- `add` (wishlist.js 1418-1437).  `now` is the value of
`new Date().toISOString()`.  Appends a fresh record when `contains` does not
already report the id, then saves and shows a notification. -/
def add (s : WishlistState) (product : WishlistItem) (now : String) :
    Bool × WishlistState :=
  if contains s.items product.id then (false, s)
  else
    let s1 := saveToStorage { s with items := s.items ++ [addedItem product now] }
    (true, { s1 with notifications := s1.notifications ++ ["お気に入りに追加しました"] })

/-- `remove` (wishlist.js 1444-1456): falsy ids return `false` untouched;
otherwise the list is filtered by `String`-coerced id inequality, and only
when the length changed does the engine save and notify. -/
def remove (s : WishlistState) (productId : Option Json) :
    Bool × WishlistState :=
  if jsTruthyU productId = false then (false, s)
  else
    let newItems := s.items.filter fun it =>
      jsToStringU it.id != jsToStringU productId
    if newItems.length ≠ s.items.length then
      let s1 := saveToStorage { s with items := newItems }
      (true, { s1 with notifications := s1.notifications ++ ["お気に入りから削除しました"] })
    else (false, { s with items := newItems })

/-- `toggle` (wishlist.js 1463-1471). -/
def toggle (s : WishlistState) (product : WishlistItem) (now : String) :
    Bool × WishlistState :=
  if contains s.items product.id then
    (false, (remove s product.id).2)
  else
    (true, (add s product now).2)

/-- `clear` (wishlist.js 1477-1482). -/
def clear (s : WishlistState) : WishlistState :=
  saveToStorage { s with items := [] }

/-- A product option (name, 1-based position, known values). -/
structure ProductOption where
  name : String
  position : Int
  values : List String
deriving Repr, DecidableEq

/-- A catalog variant in the normalized `ProductData` schema.  `options` is
`none` when the raw `variant.options` was not an array; `price` carries the
raw value handed to `Number(...)` (no claim inspects the numeric coercion). -/
structure ProductVariant where
  id : Option Json
  available : Bool
  price : Option Json
  options : Option (List String)
  option1 : Option String
  option2 : Option String
  option3 : Option String
  featuredImage : Option String
deriving Repr, DecidableEq

/-- Normalized product data (the `ProductData` JSDoc shape).  `variantMedia`
is an insertion-ordered association list modelling the JS record; it is
`none` when the raw data produced no association. -/
structure ProductData where
  handle : String
  url : Option String
  options : List ProductOption
  variants : List ProductVariant
  featuredImage : Option String
  featuredMedia : Option String
  images : Option (List String)
  variantMedia : Option (List (String × String))
deriving Repr, DecidableEq

/-- The option-value extraction inside `findVariantByOptions`
(wishlist.js 2037-2039): the `options` array when it is an array (even when
empty), else the legacy `option1..option3` fields filtered to strings. -/
def findOptionValues (v : ProductVariant) : List String :=
  match v.options with
  | some l => l
  | none => [v.option1, v.option2, v.option3].filterMap id

/-- The per-variant callback of `findVariantByOptions`
(wishlist.js 2036-2045): every defined entry of `selectedValues` must equal
the variant's option value at the same index (`undefined` entries always
pass; an out-of-range index compares `undefined === value`, which fails for
a defined string). -/
def findMatcher (selectedValues : List (Option String))
    (v : ProductVariant) : Bool :=
  let optionValues := findOptionValues v
  selectedValues.enum.all fun p =>
    match p.2 with
    | none => true
    | some s => optionValues.get? p.1 == some s

/-- `findVariantByOptions` (wishlist.js 2035-2046): the first variant, in
catalog order, accepted by the callback. -/
def findVariantByOptions (variants : List ProductVariant)
    (selectedValues : List (Option String)) : Option ProductVariant :=
  variants.find? (findMatcher selectedValues)

/-- `getVariantOptionValues` (wishlist.js 1700-1716): unlike
`findVariantByOptions` this also falls back to the legacy fields when the
`options` array is empty. -/
def getVariantOptionValues (v : ProductVariant) : List String :=
  match v.options with
  | some l => if l.length > 0 then l else [v.option1, v.option2, v.option3].filterMap id
  | none => [v.option1, v.option2, v.option3].filterMap id

/-- The fallback `variants.find((c) => c.available) || variants[0]`
(wishlist.js 1463-style JS `||`): the first available variant, else the
first variant at all, else nothing when the list is empty. -/
def fallbackVariant (variants : List ProductVariant) : Option ProductVariant :=
  match variants.find? (·.available) with
  | some v => some v
  | none => variants.head?

/-- The variant chosen by `handleWishlistVariantSelection`
(wishlist.js 2330-2346) before DOM work: the option match when one exists,
else the fallback; `none` means `applyVariantUnavailableState` runs and no
variant is selected. -/
def handleSelectionVariant (variants : List ProductVariant)
    (normalizedValues : List (Option String)) : Option ProductVariant :=
  match findVariantByOptions variants normalizedValues with
  | some v => some v
  | none => fallbackVariant variants

/-- The variant chosen by `prepareWishlistItem` (wishlist.js 2129-2136):
nothing when the product has no variants; else the variant whose
`String(id)` equals `String(item.variant_id)`, else the fallback. -/
def prepareSelectedVariant (variants : List ProductVariant)
    (itemVariantId : Option Json) : Option ProductVariant :=
  if variants.isEmpty then none
  else
    match variants.find? fun v => jsToStringU v.id == jsToStringU itemVariantId with
    | some v => some v
    | none => fallbackVariant variants

/-- The browser pieces used by `normalizeImageUrl`: whether `window` is
defined, and the behaviour of `new URL(src, origin)` followed by setting a
default `width` query parameter and `toString()`.  `resolveUrl` returning
`none` models the `URL` constructor throwing. -/
structure BrowserEnv where
  hasWindow : Bool
  resolveUrl : String → Nat → Option String

/-- `normalizeImageUrl` (wishlist.js 1751-1768): empty input yields `''`;
without a `window` the input is returned as is; otherwise the URL machinery
runs and a thrown error is caught, returning the input unchanged. -/
def normalizeImageUrl (env : BrowserEnv) (src : String) (width : Nat := 600) :
    String :=
  if src == "" then ""
  else if env.hasWindow = false then src
  else
    match env.resolveUrl src width with
    | some u => u
    | none => src

/-- One gallery entry (wishlist.js 1811 return type). -/
structure GalleryImage where
  src : String
  isVariant : Bool
  isSelectedVariant : Bool
  variantId : Option String
deriving Repr, DecidableEq

/-- The de-duplication key `normalized.split('?')[0] || normalized`
(wishlist.js 1830): the part of the normalized URL before the first `?`,
falling back to the whole URL when that part is empty. -/
def galleryKey (normalized : String) : String :=
  jsOrString ((normalized.splitOn "?").headD normalized) normalized

/-- The `pushImage` closure of `collectWishlistGalleryImages`
(wishlist.js 1822-1836): skip empty sources, normalize at width 832, skip
an empty normalization, de-duplicate on the `galleryKey` of the normalized
URL.  The accumulator carries the image list and the `seen` key set
(insertion order). -/
def pushImage (env : BrowserEnv) (acc : List GalleryImage × List String)
    (src : Option String) (isVariant isSelectedVariant : Bool)
    (variantId : Option String) : List GalleryImage × List String :=
  match src with
  | none => acc
  | some s =>
    if s == "" then acc
    else
      let normalized := normalizeImageUrl env s 832
      if normalized == "" then acc
      else
        let key := galleryKey normalized
        if key ∈ acc.2 then acc
        else (acc.1 ++ [{ src := normalized, isVariant := isVariant,
                          isSelectedVariant := isSelectedVariant,
                          variantId := variantId }], acc.2 ++ [key])

/-- The selected variant's image source
(`(selectedVariant && selectedVariant.featuredImage) || (selectedVariantId
&& productData?.variantMedia ? productData.variantMedia[selectedVariantId]
: undefined)`, wishlist.js 1839-1841), as the JS value together with its
truthiness. -/
def selectedVariantImageOf (productData : Option ProductData)
    (selectedVariant : Option ProductVariant) : Option String :=
  let a : Option String := selectedVariant.bind (·.featuredImage)
  let selectedVariantId := selectedVariant.map fun v => jsToStringU v.id
  match a with
  | some s => if s == "" then fallbackLookup selectedVariantId productData else some s
  | none => fallbackLookup selectedVariantId productData
where
  fallbackLookup (selectedVariantId : Option String)
      (productData : Option ProductData) : Option String :=
    match selectedVariantId with
    | none => none
    | some vid =>
      if vid == "" then none
      else
        match productData.bind (·.variantMedia) with
        | none => none
        | some media => media.lookup vid

/-- JS truthiness of a possibly-`undefined` string. -/
def jsTruthyStr : Option String → Bool
  | none => false
  | some s => s != ""

/-- First pass of `collectWishlistGalleryImages` (wishlist.js 1843-1849):
the selected variant's own image, when truthy. -/
def gallerySelectedStage (env : BrowserEnv)
    (selectedVariantId : Option String) (selectedVariantImage : Option String)
    (acc : List GalleryImage × List String) : List GalleryImage × List String :=
  match selectedVariantImage with
  | some s =>
    if s == "" then acc
    else pushImage env acc (some s) true true selectedVariantId
  | none => acc

/-- Second pass (wishlist.js 1851-1863): every `variantMedia` association
in insertion order, skipping the selected variant's entry when its image
was already pushed. -/
def galleryVariantMediaStage (env : BrowserEnv)
    (productData : Option ProductData) (selectedVariantId : Option String)
    (selectedVariantImage : Option String)
    (acc : List GalleryImage × List String) : List GalleryImage × List String :=
  match productData.bind (·.variantMedia) with
  | none => acc
  | some media =>
    media.foldl (fun acc2 entry =>
      let isSelected :=
        match selectedVariantId with
        | none => false
        | some svid => entry.1 == svid
      if isSelected && jsTruthyStr selectedVariantImage then acc2
      else pushImage env acc2 (some entry.2) true isSelected (some entry.1)) acc

/-- Third to fifth passes (wishlist.js 1865-1886): featured media, featured
image, then the generic product images. -/
def galleryProductImagesStage (env : BrowserEnv)
    (productData : Option ProductData)
    (acc : List GalleryImage × List String) : List GalleryImage × List String :=
  let acc :=
    match productData.bind (·.featuredMedia) with
    | none => acc
    | some fm => if fm == "" then acc else pushImage env acc (some fm) false false none
  let acc :=
    match productData.bind (·.featuredImage) with
    | none => acc
    | some fi => if fi == "" then acc else pushImage env acc (some fi) false false none
  match productData.bind (·.images) with
  | none => acc
  | some imgs =>
    imgs.foldl (fun acc2 src => pushImage env acc2 (some src) false false none) acc

/-- Last pass (wishlist.js 1888-1890): the stored fallback image, only when
nothing was collected. -/
def galleryFallbackStage (env : BrowserEnv) (fallbackImage : Option String)
    (acc : List GalleryImage × List String) : List GalleryImage × List String :=
  match fallbackImage with
  | some fb =>
    if acc.1.length = 0 ∧ fb != "" then pushImage env acc (some fb) false true none
    else acc
  | none => acc

/-- `collectWishlistGalleryImages` (wishlist.js 1813-1893): the four passes
run in order over the shared accumulator. -/
def collectWishlistGalleryImages (env : BrowserEnv)
    (productData : Option ProductData) (selectedVariant : Option ProductVariant)
    (fallbackImage : Option String) : List GalleryImage :=
  let selectedVariantId := selectedVariant.map fun v => jsToStringU v.id
  let selectedVariantImage := selectedVariantImageOf productData selectedVariant
  (galleryFallbackStage env fallbackImage
    (galleryProductImagesStage env productData
      (galleryVariantMediaStage env productData selectedVariantId
        selectedVariantImage
        (gallerySelectedStage env selectedVariantId selectedVariantImage
          ([], []))))).1

/-- The raw `variant.options` field viewed as a JS array, when it is one. -/
def rawOptionsArray (variant : Json) : Option (List Json) :=
  match getField variant "options" with
  | some (.arr l) => some l
  | _ => none

/-- The legacy per-variant option synthesis of `normalizeProductData`
(wishlist.js 1207): `[variant.option1, variant.option2, variant.option3]`
filtered to the string-typed values. -/
def legacyOptionValues (variant : Json) : List String :=
  [getField variant "option1", getField variant "option2",
   getField variant "option3"].filterMap fun v =>
    match v with
    | some (.str s) => some s
    | _ => none

/-- The variant option extraction of `normalizeProductData`
(wishlist.js 1205-1207): the explicit `options` array mapped through
`String` when it is a non-empty array, else the legacy synthesis. -/
def normalizeVariantOptions (variant : Json) : List String :=
  match rawOptionsArray variant with
  | some l => if l.length > 0 then l.map jsToString else legacyOptionValues variant
  | none => legacyOptionValues variant

/-- The full per-variant normalization of `normalizeProductData`
(wishlist.js 1199-1224); non-object entries are skipped by the caller. -/
def normalizeRawVariant (variant : Json) : ProductVariant :=
  let featuredImageSrc : Option Json :=
    match getField variant "featured_image" with
    | none => none
    | some fi =>
      if jsTypeofObject fi && jsTruthy fi then getField fi "src" else some fi
  { id := getField variant "id"
    available := jsTruthyU (getField variant "available")
    price := getField variant "price"
    options := some (normalizeVariantOptions variant)
    option1 :=
      match getField variant "option1" with | some (.str s) => some s | _ => none
    option2 :=
      match getField variant "option2" with | some (.str s) => some s | _ => none
    option3 :=
      match getField variant "option3" with | some (.str s) => some s | _ => none
    featuredImage :=
      match featuredImageSrc with | some (.str s) => some s | _ => none }

/-- The variants pass of `normalizeProductData` (wishlist.js 1196-1225):
keeps the truthy object entries of `rawData.variants` and normalizes each. -/
def normalizeRawVariants (rawData : Json) : List ProductVariant :=
  match getField rawData "variants" with
  | some (.arr l) => (l.filter fun v => jsTypeofObject v && jsTruthy v).map normalizeRawVariant
  | _ => []

/-- The preview source of one raw media entry (wishlist.js 1268-1273):
`preview_image.src` when `preview_image` is a truthy object, else `media.src`
when that is a string.  The caller drops falsy results. -/
def mediaPreviewSrc (media : Json) : Option Json :=
  match getField media "preview_image" with
  | some pi =>
    if jsTypeofObject pi && jsTruthy pi then getField pi "src"
    else
      match getField media "src" with
      | some (.str s) => some (.str s)
      | _ => none
  | none =>
    match getField media "src" with
    | some (.str s) => some (.str s)
    | _ => none

/-- The candidate variant ids of one raw media entry (wishlist.js
1278-1307): string/number entries of `media.variant_ids`, followed by the
non-null ids of the object entries of `media.variants` (with bare
string/number entries also accepted). -/
def mediaVariantIds (media : Json) : List Json :=
  let fromIdList :=
    match getField media "variant_ids" with
    | some (.arr l) =>
      l.filter fun v =>
        match v with
        | .str _ => true
        | .num _ => true
        | _ => false
    | _ => []
  let fromVariantObjects :=
    match getField media "variants" with
    | some (.arr l) =>
      l.filterMap fun e =>
        if jsTypeofObject e && jsTruthy e then
          match getField e "id" with
          | some .null => none
          | some v => some v
          | none => none
        else
          match e with
          | .str s => some (.str s)
          | .num n => some (.num n)
          | _ => none
    | _ => []
  fromIdList ++ fromVariantObjects

/-- Assignment `variantMedia[id] = src` guarded by `!variantMedia[id]`
(wishlist.js 1313-1315): assigns when the key is absent or its value is
falsy (a JS property update keeps the key's position). -/
def assignIfFalsy (acc : List (String × Json)) (id : String) (src : Json) :
    List (String × Json) :=
  match acc.lookup id with
  | none => acc ++ [(id, src)]
  | some v => if jsTruthy v then acc else acc.map fun e => if e.1 == id then (e.1, src) else e

/-- Processing of one raw media entry into the accumulator
(wishlist.js 1262-1317). -/
def applyMediaEntry (acc : List (String × Json)) (media : Json) :
    List (String × Json) :=
  if (jsTypeofObject media && jsTruthy media) = false then acc
  else
    match mediaPreviewSrc media with
    | none => acc
    | some src =>
      if jsTruthy src = false then acc
      else
        (((mediaVariantIds media).map jsToString).filter (· != "")).foldl
          (fun acc2 id => assignIfFalsy acc2 id src) acc

/-- The `variantMedia` accumulation of `normalizeProductData`
(wishlist.js 1258-1318) over the raw `media` array. -/
def buildVariantMedia (mediaList : List Json) : List (String × Json) :=
  mediaList.foldl applyMediaEntry []

/-- `s.replace(/c/g, rep)` for a single-character pattern `c`: every
occurrence of `c` is replaced by `rep`. -/
def replaceAllChar (c : Char) (rep : String) (s : String) : String :=
  String.mk (s.toList.flatMap fun x => if x = c then rep.toList else [x])

/-- The five sequential replacements of `escapeHtml` (wishlist.js 945-950). -/
def escapeHtmlString (s : String) : String :=
  replaceAllChar '\'' "&#39;" (replaceAllChar '"' "&quot;"
    (replaceAllChar '>' "&gt;" (replaceAllChar '<' "&lt;"
      (replaceAllChar '&' "&amp;" s))))

/-- `escapeHtml` (wishlist.js 940-951): `undefined` and `null` map to the
empty string, every other value is `String`-coerced and escaped. -/
def escapeHtml (value : Option Json) : String :=
  match value with
  | none => ""
  | some .null => ""
  | some j => escapeHtmlString (jsToString j)

/-- Per-character view of the escaping (the five patterns are single
characters and no later pattern occurs in an earlier replacement, so the
sequential replacements act independently on each source character). -/
def escChar (c : Char) : List Char :=
  if c = '&' then "&amp;".toList
  else if c = '<' then "&lt;".toList
  else if c = '>' then "&gt;".toList
  else if c = '"' then "&quot;".toList
  else if c = '\'' then "&#39;".toList
  else [c]

/-- JS `v || ''` for a possibly-`undefined` JS value, as fed to
`escapeHtml` (wishlist.js 2201). -/
def jsOrEmptyStr (v : Option Json) : Option Json :=
  if jsTruthyU v then v else some (.str "")

/-- The escaped values substituted into the wishlist item template by
`prepareWishlistItem` (wishlist.js 2196-2221), paired with their
placeholders.  `imageUrl`, `galleryHref`, `price` and `addToCartText` are
the intermediate strings computed earlier in `prepareWishlistItem`; the
substitution applies `escapeHtml` to each value regardless of what those
evaluate to.  `safeId` is substituted for both `[[item_key]]` and `[[id]]`. -/
def wishlistItemSafeValues (item : WishlistItem)
    (imageUrl galleryHref price addToCartText : String) :
    List (String × String) :=
  let safeId := escapeHtml item.id
  [("[[item_key]]", safeId),
   ("[[id]]", safeId),
   ("[[title]]", escapeHtml (some (.str item.title))),
   ("[[image]]", escapeHtml (some (.str (jsOrString imageUrl item.image)))),
   ("[[url]]", escapeHtml (some (.str (jsOrString galleryHref "#")))),
   ("[[price]]", escapeHtml (some (.str (jsOrString price item.price)))),
   ("[[variant_id]]", escapeHtml (jsOrEmptyStr item.variant_id)),
   ("[[add_to_cart_text]]", escapeHtml (some (.str addToCartText)))]

/-- `Array.from(new Set(xs))`: first occurrences in insertion order. -/
def dedupFirst (l : List String) : List String :=
  l.foldl (fun acc v => if v ∈ acc then acc else acc ++ [v]) []

/-- `buildVariantPickerHtml` (wishlist.js 2054-2108).  With no options or
no variants it returns the static unavailable paragraph; otherwise it
renders one dropdown per product option. -/
def buildVariantPickerHtml (pd : ProductData) (item : WishlistItem)
    (selectedVariant : ProductVariant) : String :=
  if pd.options.length = 0 ∨ pd.variants.length = 0 then
    "<p class=\"wishlist-variant-picker__unavailable\">Variant options unavailable.</p>"
  else
    let selectedOptionValues := getVariantOptionValues selectedVariant
    let htmlParts := pd.options.enum.map fun p =>
      let index := p.1
      let optionName := p.2.name
      let optionValues := dedupFirst
        ((pd.variants.map fun v => (getVariantOptionValues v).get? index).filterMap id)
      let selectId := "wishlist-select-" ++ jsToStringU item.id ++ "-" ++ toString index
      let escapedSelectId := escapeHtml (some (.str selectId))
      let escapedLabel := escapeHtml (some (.str optionName))
      let placeholderLabel := escapeHtml (some (.str ("-- " ++ optionName ++ " --")))
      let optionTags := String.join (optionValues.map fun value =>
        let escapedValue := escapeHtml (some (.str value))
        let isSelected := selectedOptionValues.get? index == some value
        "<option value=\"" ++ escapedValue ++ "\"" ++
          (if isSelected then " selected" else "") ++ ">" ++ escapedValue ++ "</option>")
      "<div class=\"variant-option variant-option--dropdowns\" data-wishlist-option-index=\"" ++
        toString index ++ "\">" ++
        "<div class=\"variant-option__select-wrapper\">" ++
        "<select id=\"" ++ escapedSelectId ++
        "\" class=\"variant-option__select\" data-option-index=\"" ++ toString index ++
        "\" aria-label=\"" ++ escapedLabel ++ "\">" ++
        "<option value=\"\" disabled>" ++ placeholderLabel ++ "</option>" ++
        optionTags ++
        "</select>" ++
        "<svg class=\"variant-option__select-icon\" viewBox=\"0 0 10 6\" aria-hidden=\"true\" focusable=\"false\"><path d=\"M0 0h10L5 6z\" fill=\"currentColor\"></path></svg>" ++
        "</div></div>"
    "<div class=\"wishlist-variant-dropdowns\" data-option-count=\"" ++
      toString pd.options.length ++ "\">" ++ String.join htmlParts ++ "</div>"

/-- The JS whitespace set recognized by `String.prototype.trim`. -/
def isJsWhitespace (c : Char) : Bool :=
  let n := c.toNat
  n == 9 || n == 10 || n == 11 || n == 12 || n == 13 || n == 32 || n == 160 ||
  n == 0x1680 || (0x2000 ≤ n && n ≤ 0x200A) || n == 0x2028 || n == 0x2029 ||
  n == 0x202F || n == 0x205F || n == 0x3000 || n == 0xFEFF

/-- JS `String.prototype.trim`. -/
def jsTrim (s : String) : String :=
  String.mk (((s.toList.dropWhile isJsWhitespace).reverse.dropWhile
    isJsWhitespace).reverse)

/-- The needs-interactive-picker flag computed by `prepareWishlistItem`
(wishlist.js 2157-2194): false unless product data resolved and a variant
was selected; when the selected variant is available the flag is
`variantPickerHtml.trim().length > 0` for the built picker markup. -/
def shouldInitVariantPickerOf (productData : Option ProductData)
    (item : WishlistItem) : Bool :=
  match productData with
  | none => false
  | some pd =>
    match prepareSelectedVariant pd.variants item.variant_id with
    | none => false
    | some sv =>
      if sv.available then
        (jsTrim (buildVariantPickerHtml pd item sv)).length > 0
      else false

/-! ## Spec-side predicates and example data -/

/-- The spec's matching predicate for `findByOptions`: every defined
(non-`undefined`) entry of the selection equals the variant's option value
at the same position; `undefined` entries act as wildcards. -/
def matchesSelection (sel : List (Option String)) (v : ProductVariant) : Prop :=
  ∀ (i : Nat) (s : String),
    sel[i]? = some (some s) → (findOptionValues v)[i]? = some s

/-- A two-option example variant used by the spec's concrete scenarios. -/
def exampleVariant (n : Int) (o1 o2 : String) : ProductVariant :=
  { id := some (.num n), available := true, price := none,
    options := some [o1, o2], option1 := none, option2 := none,
    option3 := none, featuredImage := none }

/-- The spec's example catalog `[{A,Red},{A,Blue},{B,Red}]`. -/
def exampleVariants : List ProductVariant :=
  [exampleVariant 1 "A" "Red", exampleVariant 2 "A" "Blue",
   exampleVariant 3 "B" "Red"]

/-- The boolean matcher inside `findVariantByOptions` agrees with the
spec's predicate. -/
theorem findMatcher_iff (sel : List (Option String)) (v : ProductVariant) :
    findMatcher sel v = true ↔ matchesSelection sel v := by
  rw [findMatcher, List.all_eq_true]
  simp only [matchesSelection]
  constructor
  · intro h i s hget
    have hm : ((i, some s) : Nat × Option String) ∈ sel.enum :=
      List.mem_enum_iff_getElem?.2 hget
    have := h _ hm
    simpa [List.get?_eq_getElem?] using this
  · intro h p hp
    obtain ⟨i, val⟩ := p
    have hg := List.mem_enum_iff_getElem?.1 hp
    cases val with
    | none => simp
    | some s =>
      have := h i s hg
      simpa [List.get?_eq_getElem?] using this

/-- C1: `findVariantByOptions` returns the first variant in catalog
(declaration) order such that every defined entry of the selection equals
that variant's option value at the same position, with `undefined` entries
acting as wildcards, and returns nothing when no variant matches.  On the
spec's example catalog `[{A,Red},{A,Blue},{B,Red}]`, the partial selection
`[undefined, "Red"]` yields `{A,Red}` and `["B","Blue"]` yields no match. -/
theorem findVariantByOptions_first_match :
    (∀ (variants : List ProductVariant) (sel : List (Option String))
        (v : ProductVariant),
      findVariantByOptions variants sel = some v ↔
        matchesSelection sel v ∧
          ∃ pre post, variants = pre ++ v :: post ∧
            ∀ w ∈ pre, ¬ matchesSelection sel w) ∧
    (∀ (variants : List ProductVariant) (sel : List (Option String)),
      findVariantByOptions variants sel = none ↔
        ∀ v ∈ variants, ¬ matchesSelection sel v) ∧
    findVariantByOptions exampleVariants [none, some "Red"] =
      some (exampleVariant 1 "A" "Red") ∧
    findVariantByOptions exampleVariants [some "B", some "Blue"] = none := by
  refine ⟨?_, ?_, by decide, by decide⟩
  · intro variants sel v
    rw [findVariantByOptions, List.find?_eq_some]
    constructor
    · rintro ⟨hp, pre, post, rfl, hpre⟩
      refine ⟨(findMatcher_iff sel v).1 hp, pre, post, rfl, fun w hw hm => ?_⟩
      have hfalse := hpre w hw
      rw [(findMatcher_iff sel w).2 hm] at hfalse
      simp at hfalse
    · rintro ⟨hm, pre, post, rfl, hpre⟩
      refine ⟨(findMatcher_iff sel v).2 hm, pre, post, rfl, fun w hw => ?_⟩
      have : ¬ findMatcher sel w = true := fun h =>
        hpre w hw ((findMatcher_iff sel w).1 h)
      simp [Bool.not_eq_true] at this
      simp [this]
  · intro variants sel
    rw [findVariantByOptions, List.find?_eq_none]
    constructor
    · intro h v hv hm
      exact h v hv ((findMatcher_iff sel v).2 hm)
    · intro h v hv hp
      exact h v hv ((findMatcher_iff sel v).1 hp)

/-- An example saved record with id `"1"`. -/
def exampleItemA : WishlistItem :=
  { id := some (.str "1"), title := "A", image := "", url := "", price := "",
    variant_id := none, available := true, handle := "", added_at := none }

/-- An example saved record with id `"2"`. -/
def exampleItemB : WishlistItem :=
  { id := some (.str "2"), title := "B", image := "", url := "", price := "",
    variant_id := none, available := true, handle := "", added_at := none }

/-- A state holding `[A, B]` in that insertion order. -/
def exampleStateAB : WishlistState :=
  { items := [exampleItemA, exampleItemB], storage := .absent,
    notifications := [], saveEvents := 0 }

/-- A state holding only `B`. -/
def exampleStateB : WishlistState :=
  { items := [exampleItemB], storage := .absent,
    notifications := [], saveEvents := 0 }

/-- C2 counterexample: toggling a product that is already saved (and not in
last position) twice does not restore the list — the first toggle removes
the record and the second re-appends a fresh record at the end, changing
both order and contents (`added_at` is refreshed). -/
theorem toggle_toggle_changes_list :
    ((toggle (toggle exampleStateAB exampleItemA "t1").2 exampleItemA
      "t2").2).items ≠ exampleStateAB.items := by decide

/-- C2 (amended): toggling twice restores the item list exactly when the
product's id is truthy and no stored record's `String`-coerced id equals
it — i.e. starting from the not-saved side of the toggle. -/
theorem toggle_toggle_restores (s : WishlistState) (p : WishlistItem)
    (now1 now2 : String) (htruthy : jsTruthyU p.id = true)
    (hfresh : ∀ it ∈ s.items, jsToStringU it.id ≠ jsToStringU p.id) :
    ((toggle (toggle s p now1).2 p now2).2).items = s.items := by
  have hc1 : contains s.items p.id = false := by
    rw [contains]
    simp only [htruthy, Bool.true_eq_false, if_false, List.any_eq_false]
    intro it hit
    simpa using hfresh it hit
  have hstep1 : (toggle s p now1).2.items = s.items ++ [addedItem p now1] := by
    rw [toggle, hc1]
    simp [add, hc1, saveToStorage]
  have hc2 : contains ((toggle s p now1).2.items) p.id = true := by
    rw [hstep1, contains]
    simp only [htruthy, Bool.true_eq_false, if_false, List.any_eq_true]
    exact ⟨addedItem p now1, by simp [addedItem], by simp [addedItem]⟩
  have hfilter :
      (s.items ++ [addedItem p now1]).filter
        (fun it => jsToStringU it.id != jsToStringU p.id) = s.items := by
    rw [List.filter_append]
    have h1 : s.items.filter
        (fun it => jsToStringU it.id != jsToStringU p.id) = s.items :=
      List.filter_eq_self.2 fun it hit => by simpa using hfresh it hit
    have h2 : ([addedItem p now1]).filter
        (fun it => jsToStringU it.id != jsToStringU p.id) = [] := by
      simp [addedItem]
    rw [h1, h2, List.append_nil]
  rw [toggle, hc2]
  simp only [remove, htruthy, Bool.true_eq_false, if_false]
  rw [hstep1, hfilter]
  have hlen : s.items.length ≠ (s.items ++ [addedItem p now1]).length := by
    simp
  simp [hlen, saveToStorage, hstep1]

/-- C2 witness: a concrete run of the amended statement. -/
theorem toggle_toggle_restores_witness :
    ((toggle (toggle exampleStateB exampleItemA "t1").2 exampleItemA
      "t2").2).items = exampleStateB.items :=
  toggle_toggle_restores exampleStateB exampleItemA "t1" "t2" (by decide)
    (by decide)

/-- C10: `remove` with a falsy id, or with an id not `String`-equal to any
stored item's id, returns `false` and leaves the whole state (items,
persisted storage, notifications, save-triggered updates) unchanged. -/
theorem remove_unmatched_noop (s : WishlistState) (pid : Option Json)
    (h : jsTruthyU pid = false ∨
      ∀ it ∈ s.items, jsToStringU it.id ≠ jsToStringU pid) :
    remove s pid = (false, s) := by
  rw [remove]
  rcases hb : jsTruthyU pid with _ | _
  · simp
  · rcases h with hf | hne
    · rw [hb] at hf; cases hf
    · have hfilter : s.items.filter
          (fun it => jsToStringU it.id != jsToStringU pid) = s.items :=
        List.filter_eq_self.2 fun it hit => by simpa using hne it hit
      simp [hfilter]

/-- C10 witness: removing an id that is not saved changes nothing. -/
theorem remove_unmatched_noop_witness :
    remove exampleStateB (some (.str "1")) = (false, exampleStateB) :=
  remove_unmatched_noop exampleStateB (some (.str "1")) (Or.inr (by decide))

/-- The invariant of the persistent store: at most one entry per
`String`-coerced product id. -/
def uniqueIds (items : List WishlistItem) : Prop :=
  (items.map fun it => jsToStringU it.id).Nodup

/-- A saved record whose id is the falsy number `0`. -/
def exampleItemZero : WishlistItem :=
  { id := some (.num 0), title := "Z", image := "", url := "", price := "",
    variant_id := none, available := true, handle := "", added_at := none }

/-- A state holding only the falsy-id record. -/
def exampleStateZero : WishlistState :=
  { items := [exampleItemZero], storage := .absent,
    notifications := [], saveEvents := 0 }

/-- C4 counterexample: `add` does not preserve the at-most-one-entry-per-id
invariant for a falsy product id — `contains` treats every falsy id as
absent, so a second record with id `0` is appended next to the saved one. -/
theorem add_falsy_id_breaks_invariant :
    uniqueIds exampleStateZero.items ∧
      ¬ uniqueIds ((add exampleStateZero exampleItemZero "t").2.items) := by
  constructor
  · unfold uniqueIds
    decide
  · unfold uniqueIds
    decide

/-- `contains` reporting false for a truthy id means no stored record's
`String`-coerced id equals it. -/
theorem contains_false_means_fresh (items : List WishlistItem)
    (pid : Option Json) (ht : jsTruthyU pid = true)
    (hc : contains items pid = false) :
    ∀ it ∈ items, jsToStringU it.id ≠ jsToStringU pid := by
  rw [contains, ht] at hc
  simp only [Bool.true_eq_false, if_false, List.any_eq_false] at hc
  intro it hit
  simpa using hc it hit

/-- C4 (amended): `add`, `remove`, `toggle` and `clear` preserve the
at-most-one-entry-per-id invariant — for `add`/`toggle` under the proviso
that the product's id is truthy (a falsy id bypasses the `contains` check) —
list order is insertion order: `add` appends the new record at the tail and
leaves the earlier records in place, `remove` keeps the surviving records in
their original relative order, and a save followed by a load reproduces the
item list exactly, so both the invariant and the insertion order survive a
reload. -/
theorem storeInvariantPreserved :
    (∀ (s : WishlistState) (p : WishlistItem) (now : String),
      jsTruthyU p.id = true → uniqueIds s.items →
        uniqueIds (add s p now).2.items) ∧
    (∀ (s : WishlistState) (pid : Option Json),
      uniqueIds s.items → uniqueIds (remove s pid).2.items) ∧
    (∀ (s : WishlistState) (p : WishlistItem) (now : String),
      jsTruthyU p.id = true → uniqueIds s.items →
        uniqueIds (toggle s p now).2.items) ∧
    (∀ s : WishlistState, uniqueIds (clear s).items) ∧
    (∀ (s : WishlistState) (p : WishlistItem) (now : String),
      contains s.items p.id = false →
        (add s p now).2.items = s.items ++ [addedItem p now]) ∧
    (∀ (s : WishlistState) (pid : Option Json),
      ((remove s pid).2.items).Sublist s.items) ∧
    (∀ items : List WishlistItem,
      loadFromStorage (.parsed (.arr (items.map encodeStoredItem))) = items) := by
  have hadd : ∀ (s : WishlistState) (p : WishlistItem) (now : String),
      jsTruthyU p.id = true → uniqueIds s.items →
        uniqueIds (add s p now).2.items := by
    intro s p now ht hu
    rw [add]
    rcases hc : contains s.items p.id with _ | _
    · have hfresh := contains_false_means_fresh s.items p.id ht hc
      simp only [Bool.false_eq_true, if_false, saveToStorage]
      rw [uniqueIds] at hu ⊢
      simp only [List.map_append, List.map_cons, List.map_nil]
      rw [List.nodup_append]
      refine ⟨hu, List.nodup_singleton _, ?_⟩
      intro a ha hb
      simp only [List.mem_map] at ha
      obtain ⟨it, hit, rfl⟩ := ha
      simp only [List.mem_singleton] at hb
      exact hfresh it hit (by simpa [addedItem] using hb)
    · simpa using hu
  have hremove : ∀ (s : WishlistState) (pid : Option Json),
      uniqueIds s.items → uniqueIds (remove s pid).2.items := by
    intro s pid hu
    rw [remove]
    rcases hb : jsTruthyU pid with _ | _
    · simpa using hu
    · have hsub : (s.items.filter
          (fun it => jsToStringU it.id != jsToStringU pid)).Sublist s.items :=
        List.filter_sublist s.items
      have hnd : uniqueIds (s.items.filter
          (fun it => jsToStringU it.id != jsToStringU pid)) :=
        List.Nodup.sublist (hsub.map _) hu
      simp only [Bool.true_eq_false, if_false]
      by_cases hlen : (s.items.filter
          (fun it => jsToStringU it.id != jsToStringU pid)).length ≠
            s.items.length
      · rw [if_pos hlen]
        exact hnd
      · rw [if_neg hlen]
        exact hnd
  refine ⟨hadd, hremove, ?_, ?_, ?_, ?_, ?_⟩
  · intro s p now ht hu
    rw [toggle]
    rcases hc : contains s.items p.id with _ | _
    · simpa using hadd s p now ht hu
    · simpa using hremove s p.id hu
  · intro s
    simp [clear, saveToStorage, uniqueIds]
  · intro s p now hc
    simp [add, hc, saveToStorage]
  · intro s pid
    rw [remove]
    rcases hb : jsTruthyU pid with _ | _
    · exact List.Sublist.refl _
    · simp only [Bool.true_eq_false, if_false]
      by_cases hlen : (s.items.filter
          (fun it => jsToStringU it.id != jsToStringU pid)).length ≠
            s.items.length
      · rw [if_pos hlen]
        exact List.filter_sublist s.items
      · rw [if_neg hlen]
        exact List.filter_sublist s.items
  · have hone : ∀ it : WishlistItem,
        normalizeStoredItem (encodeStoredItem it) = it := by
      intro it
      obtain ⟨id, title, image, url, price, vid, avail, handle, addedAt⟩ := it
      cases id <;> cases vid <;> cases addedAt <;> cases avail <;> rfl
    intro items
    induction items with
    | nil => rfl
    | cons it rest ih =>
      simp only [List.map_cons, loadFromStorage, List.filter_cons] at ih ⊢
      have h1 : isStoredRecord (encodeStoredItem it) = true := rfl
      rw [h1]
      simp only [if_true, List.map_cons, hone it]
      exact congrArg (it :: ·) ih

/-- A malformed storage entry (not an object: a bare string). -/
def exampleMalformed : Json := .str "broken"

/-- A well-formed storage entry with no `available` and no `handle` field. -/
def exampleWellFormed : Json :=
  .obj [("id", .num 10), ("title", .str "T")]

/-- C5: `loadFromStorage` is total on raw payloads — a parse failure yields
the empty list, a non-record entry anywhere in the array is dropped without
affecting the rest, a kept record with no `available` field defaults it to
`true` and one with no `handle` field defaults it to `""`; on the mixed
example payload only the well-formed record survives, with both defaults
applied. -/
theorem loadFromStorage_robust :
    loadFromStorage .parseError = [] ∧
    loadFromStorage .absent = [] ∧
    (∀ (pre post : List Json) (e : Json), isStoredRecord e = false →
      loadFromStorage (.parsed (.arr (pre ++ e :: post))) =
        loadFromStorage (.parsed (.arr (pre ++ post)))) ∧
    (∀ fields, getField (.obj fields) "available" = none →
      (normalizeStoredItem (.obj fields)).available = true) ∧
    (∀ fields, getField (.obj fields) "handle" = none →
      (normalizeStoredItem (.obj fields)).handle = "") ∧
    loadFromStorage (.parsed (.arr [exampleMalformed, exampleWellFormed])) =
      [{ id := some (.num 10), title := "T", image := "", url := "",
         price := "", variant_id := none, available := true, handle := "",
         added_at := none }] := by
  refine ⟨rfl, rfl, ?_, ?_, ?_, by decide⟩
  · intro pre post e he
    simp only [loadFromStorage, List.filter_append, List.filter_cons, he]
    simp
  · intro fields hmiss
    simp [normalizeStoredItem, hmiss]
  · intro fields hmiss
    simp [normalizeStoredItem, hmiss]

/-- C6: when `findVariantByOptions` finds no match, the selection handler
falls back to `variants.find(available) || variants[0]`; that fallback is
the first available variant in catalog order when one exists, else the
first variant at all; and a product with no variants selects nothing, both
in the option-change handler and in the render pipeline's initial pick. -/
theorem variantSelectionFallback :
    (∀ (variants : List ProductVariant) (vals : List (Option String)),
      findVariantByOptions variants vals = none →
        handleSelectionVariant variants vals = fallbackVariant variants) ∧
    (∀ (variants : List ProductVariant) (vid : Option Json),
      variants ≠ [] →
        variants.find? (fun v => jsToStringU v.id == jsToStringU vid) = none →
          prepareSelectedVariant variants vid = fallbackVariant variants) ∧
    (∀ variants : List ProductVariant,
      (∃ v ∈ variants, v.available = true) →
        ∃ pre post v, variants = pre ++ v :: post ∧ v.available = true ∧
          (∀ w ∈ pre, w.available = false) ∧
          fallbackVariant variants = some v) ∧
    (∀ variants : List ProductVariant,
      (∀ v ∈ variants, v.available = false) →
        fallbackVariant variants = variants.head?) ∧
    (∀ vals : List (Option String), handleSelectionVariant [] vals = none) ∧
    (∀ vid : Option Json, prepareSelectedVariant [] vid = none) := by
  refine ⟨?_, ?_, ?_, ?_, ?_, ?_⟩
  · intro variants vals hnone
    rw [handleSelectionVariant, hnone]
  · intro variants vid hne hnone
    rw [prepareSelectedVariant, if_neg (by simpa using hne), hnone]
  · intro variants hex
    rcases hf : variants.find? (·.available) with _ | w
    · rw [List.find?_eq_none] at hf
      obtain ⟨v, hv, hav⟩ := hex
      exact absurd hav (by simpa using hf v hv)
    · obtain ⟨pw, pre, post, heq, hpre⟩ := List.find?_eq_some.1 hf
      refine ⟨pre, post, w, heq, by simpa using pw, ?_, ?_⟩
      · intro x hx
        have := hpre x hx
        simpa using this
      · rw [fallbackVariant, hf]
  · intro variants hall
    have hf : variants.find? (·.available) = none :=
      List.find?_eq_none.2 fun v hv => by simp [hall v hv]
    rw [fallbackVariant, hf]
  · intro vals
    rfl
  · intro vid
    rfl

/-- Accumulator invariant: the seen set is exactly the key list of the
collected images and has no duplicates. -/
def galleryAccInv (acc : List GalleryImage × List String) : Prop :=
  acc.2 = acc.1.map (fun i => galleryKey i.src) ∧ acc.2.Nodup

/-- Growth relation between gallery accumulators: the later one extends the
earlier one on both components. -/
def accGrows (a b : List GalleryImage × List String) : Prop :=
  ∃ t1 t2, b = (a.1 ++ t1, a.2 ++ t2)

theorem accGrows_refl (a : List GalleryImage × List String) : accGrows a a :=
  ⟨[], [], by simp⟩

theorem accGrows_trans {a b c : List GalleryImage × List String}
    (h1 : accGrows a b) (h2 : accGrows b c) : accGrows a c := by
  obtain ⟨t1, t2, rfl⟩ := h1
  obtain ⟨u1, u2, rfl⟩ := h2
  exact ⟨t1 ++ u1, t2 ++ u2, by simp⟩

/-- `pushImage` either leaves the accumulator unchanged or appends exactly
one image together with its fresh key. -/
theorem pushImage_cases (env : BrowserEnv)
    (acc : List GalleryImage × List String) (src : Option String)
    (iv isv : Bool) (vid : Option String) :
    pushImage env acc src iv isv vid = acc ∨
      ∃ s, src = some s ∧
        galleryKey (normalizeImageUrl env s 832) ∉ acc.2 ∧
        pushImage env acc src iv isv vid =
          (acc.1 ++ [{ src := normalizeImageUrl env s 832, isVariant := iv,
                       isSelectedVariant := isv, variantId := vid }],
           acc.2 ++ [galleryKey (normalizeImageUrl env s 832)]) := by
  cases src with
  | none => exact Or.inl rfl
  | some s =>
    by_cases h1 : (s == "") = true
    · exact Or.inl (by simp [pushImage, h1])
    · by_cases h2 : (normalizeImageUrl env s 832 == "") = true
      · exact Or.inl (by
          simp only [pushImage, Bool.not_eq_true] at *
          simp [h1, h2])
      · by_cases h3 : galleryKey (normalizeImageUrl env s 832) ∈ acc.2
        · exact Or.inl (by
            simp only [pushImage, Bool.not_eq_true] at *
            simp [h1, h2, h3])
        · refine Or.inr ⟨s, rfl, h3, ?_⟩
          simp only [pushImage, Bool.not_eq_true] at *
          simp [h1, h2, h3]

theorem pushImage_inv (env : BrowserEnv)
    (acc : List GalleryImage × List String) (src : Option String)
    (iv isv : Bool) (vid : Option String) (h : galleryAccInv acc) :
    galleryAccInv (pushImage env acc src iv isv vid) := by
  rcases pushImage_cases env acc src iv isv vid with heq | ⟨s, _, hnotin, heq⟩
  · rw [heq]; exact h
  · rw [heq]
    obtain ⟨hk, hnd⟩ := h
    refine ⟨by simp [hk], ?_⟩
    simp only [List.nodup_append, List.nodup_singleton]
    exact ⟨hnd, trivial, by simpa using hnotin⟩

theorem pushImage_grows (env : BrowserEnv)
    (acc : List GalleryImage × List String) (src : Option String)
    (iv isv : Bool) (vid : Option String) :
    accGrows acc (pushImage env acc src iv isv vid) := by
  rcases pushImage_cases env acc src iv isv vid with heq | ⟨s, _, _, heq⟩
  · rw [heq]; exact accGrows_refl acc
  · rw [heq]; exact ⟨_, _, rfl⟩

theorem foldl_grows {α : Type} {f : (List GalleryImage × List String) → α →
    (List GalleryImage × List String)}
    (hf : ∀ acc a, accGrows acc (f acc a)) :
    ∀ (l : List α) acc, accGrows acc (l.foldl f acc) := by
  intro l
  induction l with
  | nil => intro acc; exact accGrows_refl acc
  | cons x xs ih =>
    intro acc
    exact accGrows_trans (hf acc x) (ih (f acc x))

theorem foldl_pred {α σ : Type} (P : σ → Prop)
    {f : σ → α → σ} (hf : ∀ s a, P s → P (f s a)) :
    ∀ (l : List α) (s : σ), P s → P (l.foldl f s) := by
  intro l
  induction l with
  | nil => intro s hs; exact hs
  | cons x xs ih => intro s hs; exact ih (f s x) (hf s x hs)

theorem gallerySelectedStage_grows (env : BrowserEnv)
    (svid svimg : Option String) (acc : List GalleryImage × List String) :
    accGrows acc (gallerySelectedStage env svid svimg acc) := by
  rw [gallerySelectedStage.eq_def]
  cases svimg with
  | none => exact accGrows_refl acc
  | some s =>
    by_cases h : (s == "") = true
    · simp only [h, if_true]; exact accGrows_refl acc
    · simp only [Bool.not_eq_true] at h
      simp only [h, Bool.false_eq_true, if_false]
      exact pushImage_grows env acc (some s) true true svid

theorem gallerySelectedStage_inv (env : BrowserEnv)
    (svid svimg : Option String) (acc : List GalleryImage × List String)
    (h : galleryAccInv acc) :
    galleryAccInv (gallerySelectedStage env svid svimg acc) := by
  rw [gallerySelectedStage.eq_def]
  cases svimg with
  | none => exact h
  | some s =>
    by_cases hb : (s == "") = true
    · simp only [hb, if_true]; exact h
    · simp only [Bool.not_eq_true] at hb
      simp only [hb, Bool.false_eq_true, if_false]
      exact pushImage_inv env acc (some s) true true svid h

theorem galleryVariantMediaStage_grows (env : BrowserEnv)
    (pd : Option ProductData) (svid svimg : Option String)
    (acc : List GalleryImage × List String) :
    accGrows acc (galleryVariantMediaStage env pd svid svimg acc) := by
  rw [galleryVariantMediaStage]
  cases pd.bind (·.variantMedia) with
  | none => exact accGrows_refl acc
  | some media =>
    refine foldl_grows (fun acc2 entry => ?_) media acc
    by_cases hc : ((match svid with
        | none => false
        | some s => entry.1 == s) && jsTruthyStr svimg) = true
    · simp only [hc, if_true]; exact accGrows_refl acc2
    · simp only [Bool.not_eq_true] at hc
      simp only [hc, Bool.false_eq_true, if_false]
      exact pushImage_grows env acc2 (some entry.2) true _ (some entry.1)

theorem galleryVariantMediaStage_inv (env : BrowserEnv)
    (pd : Option ProductData) (svid svimg : Option String)
    (acc : List GalleryImage × List String) (h : galleryAccInv acc) :
    galleryAccInv (galleryVariantMediaStage env pd svid svimg acc) := by
  rw [galleryVariantMediaStage]
  cases pd.bind (·.variantMedia) with
  | none => exact h
  | some media =>
    refine foldl_pred galleryAccInv (fun acc2 entry h2 => ?_) media acc h
    by_cases hc : ((match svid with
        | none => false
        | some s => entry.1 == s) && jsTruthyStr svimg) = true
    · simp only [hc, if_true]; exact h2
    · simp only [Bool.not_eq_true] at hc
      simp only [hc, Bool.false_eq_true, if_false]
      exact pushImage_inv env acc2 (some entry.2) true _ (some entry.1) h2

theorem galleryProductImagesStage_grows (env : BrowserEnv)
    (pd : Option ProductData) (acc : List GalleryImage × List String) :
    accGrows acc (galleryProductImagesStage env pd acc) := by
  rw [galleryProductImagesStage]
  have g1 : ∀ acc1, accGrows acc1 (match pd.bind (·.featuredMedia) with
      | none => acc1
      | some fm => if fm == "" then acc1
          else pushImage env acc1 (some fm) false false none) := by
    intro acc1
    cases pd.bind (·.featuredMedia) with
    | none => exact accGrows_refl acc1
    | some fm =>
      by_cases hb : (fm == "") = true
      · simp only [hb, if_true]; exact accGrows_refl acc1
      · simp only [Bool.not_eq_true] at hb
        simp only [hb, Bool.false_eq_true, if_false]
        exact pushImage_grows env acc1 (some fm) false false none
  have g2 : ∀ acc2, accGrows acc2 (match pd.bind (·.featuredImage) with
      | none => acc2
      | some fi => if fi == "" then acc2
          else pushImage env acc2 (some fi) false false none) := by
    intro acc2
    cases pd.bind (·.featuredImage) with
    | none => exact accGrows_refl acc2
    | some fi =>
      by_cases hb : (fi == "") = true
      · simp only [hb, if_true]; exact accGrows_refl acc2
      · simp only [Bool.not_eq_true] at hb
        simp only [hb, Bool.false_eq_true, if_false]
        exact pushImage_grows env acc2 (some fi) false false none
  have g3 : ∀ acc3, accGrows acc3 (match pd.bind (·.images) with
      | none => acc3
      | some imgs => imgs.foldl
          (fun a src => pushImage env a (some src) false false none) acc3) := by
    intro acc3
    cases pd.bind (·.images) with
    | none => exact accGrows_refl acc3
    | some imgs =>
      exact foldl_grows (fun a src =>
        pushImage_grows env a (some src) false false none) imgs acc3
  exact accGrows_trans (g1 acc) (accGrows_trans (g2 _) (g3 _))

theorem galleryProductImagesStage_inv (env : BrowserEnv)
    (pd : Option ProductData) (acc : List GalleryImage × List String)
    (h : galleryAccInv acc) :
    galleryAccInv (galleryProductImagesStage env pd acc) := by
  rw [galleryProductImagesStage]
  have g1 : ∀ acc1, galleryAccInv acc1 →
      galleryAccInv (match pd.bind (·.featuredMedia) with
      | none => acc1
      | some fm => if fm == "" then acc1
          else pushImage env acc1 (some fm) false false none) := by
    intro acc1 h1
    cases pd.bind (·.featuredMedia) with
    | none => exact h1
    | some fm =>
      by_cases hb : (fm == "") = true
      · simp only [hb, if_true]; exact h1
      · simp only [Bool.not_eq_true] at hb
        simp only [hb, Bool.false_eq_true, if_false]
        exact pushImage_inv env acc1 (some fm) false false none h1
  have g2 : ∀ acc2, galleryAccInv acc2 →
      galleryAccInv (match pd.bind (·.featuredImage) with
      | none => acc2
      | some fi => if fi == "" then acc2
          else pushImage env acc2 (some fi) false false none) := by
    intro acc2 h2
    cases pd.bind (·.featuredImage) with
    | none => exact h2
    | some fi =>
      by_cases hb : (fi == "") = true
      · simp only [hb, if_true]; exact h2
      · simp only [Bool.not_eq_true] at hb
        simp only [hb, Bool.false_eq_true, if_false]
        exact pushImage_inv env acc2 (some fi) false false none h2
  have g3 : ∀ acc3, galleryAccInv acc3 →
      galleryAccInv (match pd.bind (·.images) with
      | none => acc3
      | some imgs => imgs.foldl
          (fun a src => pushImage env a (some src) false false none) acc3) := by
    intro acc3 h3
    cases pd.bind (·.images) with
    | none => exact h3
    | some imgs =>
      exact foldl_pred galleryAccInv (fun a src =>
        pushImage_inv env a (some src) false false none) imgs acc3 h3
  exact g3 _ (g2 _ (g1 _ h))

theorem galleryFallbackStage_grows (env : BrowserEnv) (fb : Option String)
    (acc : List GalleryImage × List String) :
    accGrows acc (galleryFallbackStage env fb acc) := by
  cases fb with
  | none => exact accGrows_refl acc
  | some f =>
    simp only [galleryFallbackStage]
    by_cases hc : acc.1.length = 0 ∧ (f != "") = true
    · rw [if_pos hc]
      exact pushImage_grows env acc (some f) false true none
    · rw [if_neg hc]
      exact accGrows_refl acc

theorem galleryFallbackStage_inv (env : BrowserEnv) (fb : Option String)
    (acc : List GalleryImage × List String) (h : galleryAccInv acc) :
    galleryAccInv (galleryFallbackStage env fb acc) := by
  cases fb with
  | none => exact h
  | some f =>
    simp only [galleryFallbackStage]
    by_cases hc : acc.1.length = 0 ∧ (f != "") = true
    · rw [if_pos hc]
      exact pushImage_inv env acc (some f) false true none h
    · rw [if_neg hc]
      exact h

/-- The gallery precedence shape: every variant-tagged entry precedes every
non-variant entry. -/
def splitVariant (l : List GalleryImage) : Prop :=
  ∃ va nb, l = va ++ nb ∧ (∀ x ∈ va, x.isVariant = true) ∧
    (∀ x ∈ nb, x.isVariant = false)

theorem pushTrue_allVariant (env : BrowserEnv)
    (acc : List GalleryImage × List String) (src : Option String)
    (isv : Bool) (vid : Option String)
    (h : ∀ x ∈ acc.1, x.isVariant = true) :
    ∀ x ∈ (pushImage env acc src true isv vid).1, x.isVariant = true := by
  rcases pushImage_cases env acc src true isv vid with heq | ⟨s, _, _, heq⟩
  · rw [heq]; exact h
  · rw [heq]
    intro x hx
    simp only [List.mem_append, List.mem_singleton] at hx
    rcases hx with hx | rfl
    · exact h x hx
    · rfl

theorem pushFalse_split (env : BrowserEnv)
    (acc : List GalleryImage × List String) (src : Option String)
    (isv : Bool) (vid : Option String) (h : splitVariant acc.1) :
    splitVariant (pushImage env acc src false isv vid).1 := by
  rcases pushImage_cases env acc src false isv vid with heq | ⟨s, _, _, heq⟩
  · rw [heq]; exact h
  · rw [heq]
    obtain ⟨va, nb, heq1, hva, hnb⟩ := h
    refine ⟨va, nb ++ [GalleryImage.mk (normalizeImageUrl env s 832) false
      isv vid], ?_, hva, ?_⟩
    · simp only [heq1, List.append_assoc]
    · intro x hx
      simp only [List.mem_append, List.mem_singleton] at hx
      rcases hx with hx | rfl
      · exact hnb x hx
      · rfl

theorem gallerySelectedStage_allVariant (env : BrowserEnv)
    (svid svimg : Option String) (acc : List GalleryImage × List String)
    (h : ∀ x ∈ acc.1, x.isVariant = true) :
    ∀ x ∈ (gallerySelectedStage env svid svimg acc).1, x.isVariant = true := by
  cases svimg with
  | none => exact h
  | some s =>
    simp only [gallerySelectedStage]
    by_cases hb : (s == "") = true
    · simp only [hb, if_true]; exact h
    · simp only [Bool.not_eq_true] at hb
      simp only [hb, Bool.false_eq_true, if_false]
      exact pushTrue_allVariant env acc (some s) true svid h

theorem galleryVariantMediaStage_allVariant (env : BrowserEnv)
    (pd : Option ProductData) (svid svimg : Option String)
    (acc : List GalleryImage × List String)
    (h : ∀ x ∈ acc.1, x.isVariant = true) :
    ∀ x ∈ (galleryVariantMediaStage env pd svid svimg acc).1,
      x.isVariant = true := by
  rw [galleryVariantMediaStage]
  cases pd.bind (·.variantMedia) with
  | none => exact h
  | some media =>
    refine foldl_pred (fun a => ∀ x ∈ a.1, x.isVariant = true)
      (fun acc2 entry h2 => ?_) media acc h
    by_cases hc : ((match svid with
        | none => false
        | some s => entry.1 == s) && jsTruthyStr svimg) = true
    · simp only [hc, if_true]; exact h2
    · simp only [Bool.not_eq_true] at hc
      simp only [hc, Bool.false_eq_true, if_false]
      exact pushTrue_allVariant env acc2 (some entry.2) _ (some entry.1) h2

theorem galleryProductImagesStage_split (env : BrowserEnv)
    (pd : Option ProductData) (acc : List GalleryImage × List String)
    (h : splitVariant acc.1) :
    splitVariant (galleryProductImagesStage env pd acc).1 := by
  rw [galleryProductImagesStage]
  have g1 : ∀ acc1 : List GalleryImage × List String, splitVariant acc1.1 →
      splitVariant (match pd.bind (·.featuredMedia) with
      | none => acc1
      | some fm => if fm == "" then acc1
          else pushImage env acc1 (some fm) false false none).1 := by
    intro acc1 h1
    cases pd.bind (·.featuredMedia) with
    | none => exact h1
    | some fm =>
      by_cases hb : (fm == "") = true
      · simp only [hb, if_true]; exact h1
      · simp only [Bool.not_eq_true] at hb
        simp only [hb, Bool.false_eq_true, if_false]
        exact pushFalse_split env acc1 (some fm) false none h1
  have g2 : ∀ acc2 : List GalleryImage × List String, splitVariant acc2.1 →
      splitVariant (match pd.bind (·.featuredImage) with
      | none => acc2
      | some fi => if fi == "" then acc2
          else pushImage env acc2 (some fi) false false none).1 := by
    intro acc2 h2
    cases pd.bind (·.featuredImage) with
    | none => exact h2
    | some fi =>
      by_cases hb : (fi == "") = true
      · simp only [hb, if_true]; exact h2
      · simp only [Bool.not_eq_true] at hb
        simp only [hb, Bool.false_eq_true, if_false]
        exact pushFalse_split env acc2 (some fi) false none h2
  have g3 : ∀ acc3 : List GalleryImage × List String, splitVariant acc3.1 →
      splitVariant (match pd.bind (·.images) with
      | none => acc3
      | some imgs => imgs.foldl
          (fun a src => pushImage env a (some src) false false none) acc3).1 := by
    intro acc3 h3
    cases pd.bind (·.images) with
    | none => exact h3
    | some imgs =>
      exact foldl_pred (fun a => splitVariant a.1) (fun a src =>
        pushFalse_split env a (some src) false none) imgs acc3 h3
  exact g3 _ (g2 _ (g1 _ h))

theorem galleryFallbackStage_split (env : BrowserEnv) (fb : Option String)
    (acc : List GalleryImage × List String) (h : splitVariant acc.1) :
    splitVariant (galleryFallbackStage env fb acc).1 := by
  cases fb with
  | none => exact h
  | some f =>
    simp only [galleryFallbackStage]
    by_cases hc : acc.1.length = 0 ∧ (f != "") = true
    · rw [if_pos hc]
      exact pushFalse_split env acc (some f) true none h
    · rw [if_neg hc]
      exact h

/-- One planned gallery push: the raw source with the metadata it will be
tagged with. -/
structure GalleryCandidate where
  src : String
  isVariant : Bool
  isSelectedVariant : Bool
  variantId : Option String
deriving Repr, DecidableEq

/-- Feeding one candidate to `pushImage`. -/
def pushCandidate (env : BrowserEnv) (acc : List GalleryImage × List String)
    (c : GalleryCandidate) : List GalleryImage × List String :=
  pushImage env acc (some c.src) c.isVariant c.isSelectedVariant c.variantId

/-- Whether a `variantMedia` entry belongs to the selected variant
(`selectedVariantId !== undefined && String(variantId) === selectedVariantId`,
wishlist.js 1853). -/
def mediaEntrySelected (svid : Option String) (entry : String × String) : Bool :=
  match svid with
  | none => false
  | some x => entry.1 == x

/-- Spec-side candidate enumeration, written from the claim's precedence
order: (1) the selected variant's own image, (2) the other
variant-associated images (the selected variant's association excluded
exactly when its own image was shown), (3) the product's featured media,
(4) the product's featured image, (5) the remaining generic product
images.  De-duplication happens when the candidates are pushed. -/
def gallerySpecCandidates (productData : Option ProductData)
    (selectedVariant : Option ProductVariant) : List GalleryCandidate :=
  let svid := selectedVariant.map fun v => jsToStringU v.id
  let svimg := selectedVariantImageOf productData selectedVariant
  (match svimg with
   | some s => if s == "" then [] else [GalleryCandidate.mk s true true svid]
   | none => []) ++
  (match productData.bind (·.variantMedia) with
   | none => []
   | some media =>
     (media.filter fun entry =>
       !(mediaEntrySelected svid entry && jsTruthyStr svimg)).map
       fun entry =>
         GalleryCandidate.mk entry.2 true (mediaEntrySelected svid entry)
           (some entry.1)) ++
  (match productData.bind (·.featuredMedia) with
   | none => []
   | some fm =>
     if fm == "" then [] else [GalleryCandidate.mk fm false false none]) ++
  (match productData.bind (·.featuredImage) with
   | none => []
   | some fi =>
     if fi == "" then [] else [GalleryCandidate.mk fi false false none]) ++
  (match productData.bind (·.images) with
   | none => []
   | some imgs => imgs.map fun s => GalleryCandidate.mk s false false none)

theorem gallerySelectedStage_eq_fold (env : BrowserEnv)
    (svid svimg : Option String) (acc : List GalleryImage × List String) :
    gallerySelectedStage env svid svimg acc =
      List.foldl (pushCandidate env) acc
        (match svimg with
         | some s =>
           if s == "" then []
           else [GalleryCandidate.mk s true true svid]
         | none => []) := by
  cases svimg with
  | none => rfl
  | some s =>
    simp only [gallerySelectedStage]
    by_cases hb : (s == "") = true
    · rw [if_pos hb, if_pos hb]
      rfl
    · rw [if_neg hb, if_neg hb]
      rfl

theorem mediaFold_eq (env : BrowserEnv) (svid svimg : Option String) :
    ∀ (media : List (String × String)) (acc : List GalleryImage × List String),
      List.foldl (fun acc2 entry =>
        let isSelected := mediaEntrySelected svid entry
        if isSelected && jsTruthyStr svimg then acc2
        else pushImage env acc2 (some entry.2) true isSelected (some entry.1))
        acc media =
      List.foldl (pushCandidate env) acc
        ((media.filter fun entry =>
            !(mediaEntrySelected svid entry && jsTruthyStr svimg)).map
          fun entry =>
            GalleryCandidate.mk entry.2 true (mediaEntrySelected svid entry)
              (some entry.1)) := by
  intro media
  induction media with
  | nil => intro acc; rfl
  | cons e rest ih =>
    intro acc
    simp only [List.foldl_cons, List.filter_cons]
    by_cases hc : (mediaEntrySelected svid e && jsTruthyStr svimg) = true
    · rw [if_pos hc]
      simp only [hc, Bool.not_true, Bool.false_eq_true, if_false]
      exact ih acc
    · rw [if_neg hc]
      simp only [Bool.not_eq_true] at hc
      simp only [hc, Bool.not_false, if_true, List.map_cons, List.foldl_cons]
      exact ih _

theorem galleryVariantMediaStage_eq_fold (env : BrowserEnv)
    (pd : Option ProductData) (svid svimg : Option String)
    (acc : List GalleryImage × List String) :
    galleryVariantMediaStage env pd svid svimg acc =
      List.foldl (pushCandidate env) acc
        (match pd.bind (·.variantMedia) with
         | none => []
         | some media =>
           (media.filter fun entry =>
             !(mediaEntrySelected svid entry && jsTruthyStr svimg)).map
             fun entry =>
               GalleryCandidate.mk entry.2 true
                 (mediaEntrySelected svid entry) (some entry.1)) := by
  cases hm : pd.bind (·.variantMedia) with
  | none =>
    rw [galleryVariantMediaStage, hm]
    rfl
  | some media =>
    rw [galleryVariantMediaStage, hm]
    exact mediaFold_eq env svid svimg media acc

theorem galleryProductImagesStage_eq_fold (env : BrowserEnv)
    (pd : Option ProductData) (acc : List GalleryImage × List String) :
    galleryProductImagesStage env pd acc =
      List.foldl (pushCandidate env) acc
        ((match pd.bind (·.featuredMedia) with
          | none => []
          | some fm =>
            if fm == "" then []
            else [GalleryCandidate.mk fm false false none]) ++
         ((match pd.bind (·.featuredImage) with
           | none => []
           | some fi =>
             if fi == "" then []
             else [GalleryCandidate.mk fi false false none]) ++
          (match pd.bind (·.images) with
           | none => []
           | some imgs =>
             imgs.map fun s => GalleryCandidate.mk s false false none))) := by
  rw [galleryProductImagesStage, List.foldl_append, List.foldl_append]
  have e1 : ∀ acc0 : List GalleryImage × List String,
      (match pd.bind (·.featuredMedia) with
       | none => acc0
       | some fm =>
         if fm == "" then acc0
         else pushImage env acc0 (some fm) false false none) =
      List.foldl (pushCandidate env) acc0
        (match pd.bind (·.featuredMedia) with
         | none => []
         | some fm =>
           if fm == "" then []
           else [GalleryCandidate.mk fm false false none]) := by
    intro acc0
    cases pd.bind (·.featuredMedia) with
    | none => rfl
    | some fm =>
      dsimp only
      by_cases hb : (fm == "") = true
      · rw [if_pos hb, if_pos hb]
        rfl
      · rw [if_neg hb, if_neg hb]
        rfl
  have e2 : ∀ acc0 : List GalleryImage × List String,
      (match pd.bind (·.featuredImage) with
       | none => acc0
       | some fi =>
         if fi == "" then acc0
         else pushImage env acc0 (some fi) false false none) =
      List.foldl (pushCandidate env) acc0
        (match pd.bind (·.featuredImage) with
         | none => []
         | some fi =>
           if fi == "" then []
           else [GalleryCandidate.mk fi false false none]) := by
    intro acc0
    cases pd.bind (·.featuredImage) with
    | none => rfl
    | some fi =>
      dsimp only
      by_cases hb : (fi == "") = true
      · rw [if_pos hb, if_pos hb]
        rfl
      · rw [if_neg hb, if_neg hb]
        rfl
  have e3 : ∀ acc0 : List GalleryImage × List String,
      (match pd.bind (·.images) with
       | none => acc0
       | some imgs =>
         imgs.foldl
           (fun a src => pushImage env a (some src) false false none) acc0) =
      List.foldl (pushCandidate env) acc0
        (match pd.bind (·.images) with
         | none => []
         | some imgs =>
           imgs.map fun s => GalleryCandidate.mk s false false none) := by
    intro acc0
    cases pd.bind (·.images) with
    | none => rfl
    | some imgs =>
      dsimp only
      rw [List.foldl_map]
      rfl
  rw [e1, e2, e3]

/-- When the selected variant carries its own (truthy) `featuredImage`, the
selected-variant image resolves to it. -/
theorem selectedVariantImageOf_featured (pd : Option ProductData)
    (v : ProductVariant) (f : String) (hf : v.featuredImage = some f)
    (hne : f ≠ "") : selectedVariantImageOf pd (some v) = some f := by
  simp only [selectedVariantImageOf, Option.bind, hf]
  simp [hne]

/-- C3: the gallery list is de-duplicated on the normalized URL ignoring
query parameters (`galleryKey`); when the selected variant has its own
image that image is the first entry (tagged as the selected variant's),
regardless of the rest of the product data; the stored fallback image is
used only when nothing else resolved; and every variant-associated entry
precedes every product-level entry. -/
theorem collectGalleryImages_precedence :
    (∀ (env : BrowserEnv) (pd : Option ProductData)
        (sv : Option ProductVariant) (fb : Option String),
      ((collectWishlistGalleryImages env pd sv fb).map fun i =>
        galleryKey i.src).Nodup) ∧
    (∀ (env : BrowserEnv) (pd : Option ProductData) (v : ProductVariant)
        (fb : Option String) (f : String),
      v.featuredImage = some f → f ≠ "" → normalizeImageUrl env f 832 ≠ "" →
        (collectWishlistGalleryImages env pd (some v) fb).head? =
          some (GalleryImage.mk (normalizeImageUrl env f 832) true true
            (some (jsToStringU v.id)))) ∧
    (∀ (env : BrowserEnv) (pd : Option ProductData)
        (sv : Option ProductVariant) (fb : String),
      collectWishlistGalleryImages env pd sv none ≠ [] →
        collectWishlistGalleryImages env pd sv (some fb) =
          collectWishlistGalleryImages env pd sv none) ∧
    (∀ (env : BrowserEnv) (pd : Option ProductData)
        (sv : Option ProductVariant) (fb : Option String),
      splitVariant (collectWishlistGalleryImages env pd sv fb)) ∧
    (∀ (env : BrowserEnv) (pd : Option ProductData)
        (sv : Option ProductVariant),
      collectWishlistGalleryImages env pd sv none =
        (List.foldl (pushCandidate env) ([], [])
          (gallerySpecCandidates pd sv)).1) := by
  refine ⟨?_, ?_, ?_, ?_, ?_⟩
  · intro env pd sv fb
    simp only [collectWishlistGalleryImages]
    have h0 : galleryAccInv ([], []) := ⟨rfl, List.nodup_nil⟩
    have h1 := gallerySelectedStage_inv env (sv.map fun v => jsToStringU v.id)
      (selectedVariantImageOf pd sv) ([], []) h0
    have h2 := galleryVariantMediaStage_inv env pd
      (sv.map fun v => jsToStringU v.id) (selectedVariantImageOf pd sv) _ h1
    have h3 := galleryProductImagesStage_inv env pd _ h2
    have h4 := galleryFallbackStage_inv env fb _ h3
    obtain ⟨hk, hnd⟩ := h4
    rw [← hk]
    exact hnd
  · intro env pd v fb f hf hne hnorm
    have hsel := selectedVariantImageOf_featured pd v f hf hne
    have hne' : (f == "") = false := by simpa using hne
    have hnorm' : (normalizeImageUrl env f 832 == "") = false := by
      simpa using hnorm
    have hstage1 : gallerySelectedStage env (some (jsToStringU v.id)) (some f)
        ([], []) =
        ([GalleryImage.mk (normalizeImageUrl env f 832) true true
          (some (jsToStringU v.id))],
         [galleryKey (normalizeImageUrl env f 832)]) := by
      simp only [gallerySelectedStage, hne', Bool.false_eq_true, if_false,
        pushImage, hnorm']
      simp
    simp only [collectWishlistGalleryImages, Option.map_some, Option.map_some', hsel]
    rw [hstage1]
    have g2 := galleryVariantMediaStage_grows env pd
      (some (jsToStringU v.id)) (some f)
      ([GalleryImage.mk (normalizeImageUrl env f 832) true true
        (some (jsToStringU v.id))],
       [galleryKey (normalizeImageUrl env f 832)])
    obtain ⟨t1, t2, hgg⟩ := accGrows_trans g2 (accGrows_trans
      (galleryProductImagesStage_grows env pd _)
      (galleryFallbackStage_grows env fb _))
    rw [hgg]
    simp
  · intro env pd sv fb hne
    simp only [collectWishlistGalleryImages] at hne ⊢
    have key : ∀ X : List GalleryImage × List String, X.1 ≠ [] →
        (galleryFallbackStage env (some fb) X).1 =
          (galleryFallbackStage env none X).1 := by
      intro X hX
      simp only [galleryFallbackStage]
      rw [if_neg]
      rintro ⟨h0, _⟩
      exact hX (List.length_eq_zero.1 h0)
    exact key _ hne
  · intro env pd sv fb
    simp only [collectWishlistGalleryImages]
    have h1 := gallerySelectedStage_allVariant env
      (sv.map fun v => jsToStringU v.id) (selectedVariantImageOf pd sv)
      ([], []) (by simp)
    have h2 := galleryVariantMediaStage_allVariant env pd
      (sv.map fun v => jsToStringU v.id) (selectedVariantImageOf pd sv) _ h1
    have hsplit : splitVariant (galleryVariantMediaStage env pd
        (sv.map fun v => jsToStringU v.id) (selectedVariantImageOf pd sv)
        (gallerySelectedStage env (sv.map fun v => jsToStringU v.id)
          (selectedVariantImageOf pd sv) ([], []))).1 :=
      ⟨_, [], (List.append_nil _).symm, h2, by simp⟩
    have h3 := galleryProductImagesStage_split env pd _ hsplit
    exact galleryFallbackStage_split env fb _ h3
  · intro env pd sv
    simp only [collectWishlistGalleryImages, gallerySpecCandidates,
      galleryFallbackStage]
    rw [gallerySelectedStage_eq_fold, galleryVariantMediaStage_eq_fold,
      galleryProductImagesStage_eq_fold]
    simp only [List.foldl_append]

/-! ## First-wins structure of the `variantMedia` merge -/

/-- All stored media sources are truthy (the `!previewSrc` guard ensures
this for every value the accumulation stores). -/
def mediaValuesTruthy (acc : List (String × Json)) : Prop :=
  ∀ e ∈ acc, jsTruthy e.2 = true

theorem lookup_truthy {acc : List (String × Json)} {k : String} {v : Json}
    (h : mediaValuesTruthy acc) (hl : acc.lookup k = some v) :
    jsTruthy v = true := by
  obtain ⟨l₁, l₂, rfl, -⟩ := List.lookup_eq_some_iff.1 hl
  exact h (k, v) (by simp)

theorem assignIfFalsy_truthy {acc : List (String × Json)} {id : String}
    {src : Json} (h : mediaValuesTruthy acc) (hsrc : jsTruthy src = true) :
    mediaValuesTruthy (assignIfFalsy acc id src) := by
  rw [assignIfFalsy]
  cases hl : acc.lookup id with
  | none =>
    dsimp only
    intro e he
    rcases List.mem_append.1 he with he | he
    · exact h e he
    · simp only [List.mem_singleton] at he
      subst he
      exact hsrc
  | some v =>
    dsimp only
    rw [lookup_truthy h hl, if_pos rfl]
    exact h

theorem assignIfFalsy_lookup {acc : List (String × Json)} {id : String}
    {src : Json} (h : mediaValuesTruthy acc) (k : String) :
    (assignIfFalsy acc id src).lookup k =
      (acc.lookup k).or (if k == id then some src else none) := by
  rw [assignIfFalsy]
  cases hl : acc.lookup id with
  | none =>
    dsimp only
    rw [List.lookup_append]
    congr 1
    cases hk : k == id
    · simp [List.lookup_cons, hk]
    · simp [List.lookup_cons, hk]
  | some v =>
    dsimp only
    rw [lookup_truthy h hl, if_pos rfl]
    by_cases hk : (k == id) = true
    · have hkk : acc.lookup k = some v := by
        rw [beq_iff_eq] at hk
        rw [hk, hl]
      rw [hkk]
      rfl
    · simp only [Bool.not_eq_true] at hk
      simp only [hk, Bool.false_eq_true, if_false]
      cases acc.lookup k <;> rfl

theorem foldAssign_truthy {src : Json} (hsrc : jsTruthy src = true) :
    ∀ (ids : List String) (acc : List (String × Json)),
      mediaValuesTruthy acc →
      mediaValuesTruthy (ids.foldl (fun a i => assignIfFalsy a i src) acc) := by
  intro ids
  induction ids with
  | nil => intro acc h; exact h
  | cons i ids ih =>
    intro acc h
    exact ih _ (assignIfFalsy_truthy h hsrc)

theorem foldAssign_lookup {src : Json} (hsrc : jsTruthy src = true)
    (k : String) :
    ∀ (ids : List String) (acc : List (String × Json)),
      mediaValuesTruthy acc →
      (ids.foldl (fun a i => assignIfFalsy a i src) acc).lookup k =
        (acc.lookup k).or
          ((ids.foldl (fun a i => assignIfFalsy a i src) []).lookup k) := by
  intro ids
  induction ids with
  | nil =>
    intro acc _
    simp
  | cons i ids ih =>
    intro acc h
    simp only [List.foldl_cons]
    rw [ih _ (assignIfFalsy_truthy h hsrc),
      ih _ (assignIfFalsy_truthy (fun _ h => by cases h) hsrc),
      assignIfFalsy_lookup h k,
      assignIfFalsy_lookup (fun _ h => by cases h) k]
    simp only [List.lookup_nil, Option.none_or]
    exact Option.or_assoc

theorem applyMediaEntry_truthy {acc : List (String × Json)} {m : Json}
    (h : mediaValuesTruthy acc) :
    mediaValuesTruthy (applyMediaEntry acc m) := by
  rw [applyMediaEntry]
  by_cases hg : (jsTypeofObject m && jsTruthy m) = false
  · rw [if_pos hg]; exact h
  · rw [if_neg hg]
    cases mediaPreviewSrc m with
    | none => exact h
    | some src =>
      dsimp only
      by_cases hs : jsTruthy src = false
      · rw [if_pos hs]; exact h
      · rw [if_neg hs]
        simp only [Bool.not_eq_false] at hs
        exact foldAssign_truthy hs _ acc h

theorem applyMediaEntry_lookup {acc : List (String × Json)} {m : Json}
    (h : mediaValuesTruthy acc) (k : String) :
    (applyMediaEntry acc m).lookup k =
      (acc.lookup k).or ((applyMediaEntry [] m).lookup k) := by
  rw [applyMediaEntry, applyMediaEntry]
  by_cases hg : (jsTypeofObject m && jsTruthy m) = false
  · rw [if_pos hg, if_pos hg]
    simp
  · rw [if_neg hg, if_neg hg]
    cases mediaPreviewSrc m with
    | none => simp
    | some src =>
      dsimp only
      by_cases hs : jsTruthy src = false
      · rw [if_pos hs, if_pos hs]
        simp
      · rw [if_neg hs, if_neg hs]
        simp only [Bool.not_eq_false] at hs
        exact foldAssign_lookup hs k _ acc h

theorem buildVariantMedia_truthy (ys : List Json) :
    mediaValuesTruthy (buildVariantMedia ys) := by
  rw [buildVariantMedia]
  have : ∀ (l : List Json) (acc : List (String × Json)),
      mediaValuesTruthy acc → mediaValuesTruthy (l.foldl applyMediaEntry acc) := by
    intro l
    induction l with
    | nil => intro acc h; exact h
    | cons m l ih => intro acc h; exact ih _ (applyMediaEntry_truthy h)
  exact this ys [] (fun _ h => by cases h)

theorem buildVariantMediaAux_lookup (k : String) :
    ∀ (ys : List Json) (acc : List (String × Json)),
      mediaValuesTruthy acc →
      (ys.foldl applyMediaEntry acc).lookup k =
        (acc.lookup k).or ((buildVariantMedia ys).lookup k) := by
  intro ys
  induction ys with
  | nil =>
    intro acc _
    simp [buildVariantMedia]
  | cons m ys ih =>
    intro acc h
    simp only [List.foldl_cons, buildVariantMedia]
    rw [ih _ (applyMediaEntry_truthy h),
      ih _ (applyMediaEntry_truthy (fun _ h => by cases h)),
      applyMediaEntry_lookup h k]
    exact Option.or_assoc

/-- A media entry carrying both raw representations: an explicit
`variant_ids` list naming `7` and an embedded variant object with id `8`. -/
def exampleMediaOne : Json :=
  .obj [("preview_image", .obj [("src", .str "first.jpg")]),
        ("variant_ids", .arr [.num 7]),
        ("variants", .arr [.obj [("id", .num 8)]])]

/-- A later media entry that also names variant `7`. -/
def exampleMediaTwo : Json :=
  .obj [("src", .str "second.jpg"),
        ("variant_ids", .arr [.num 7])]

/-- C7: a variant's option values come from its explicit non-empty
`options` array (mapped through `String`) when present, else from the
legacy `option1..option3` fields filtered to strings; and the
media-to-variant merge is first-wins — the association map built over a
concatenation answers every id from the earlier part first.  On the
example media, both the `variant_ids` entry (7) and the embedded variant
object (8) are associated to the first entry's preview source, and the
second entry's association for 7 is ignored. -/
theorem normalizeVariants_and_media_merge :
    (∀ (variant : Json) (l : List Json), rawOptionsArray variant = some l →
      l ≠ [] → normalizeVariantOptions variant = l.map jsToString) ∧
    (∀ variant : Json,
      rawOptionsArray variant = none ∨ rawOptionsArray variant = some [] →
      normalizeVariantOptions variant = legacyOptionValues variant) ∧
    (∀ (xs ys : List Json) (k : String),
      (buildVariantMedia (xs ++ ys)).lookup k =
        ((buildVariantMedia xs).lookup k).or
          ((buildVariantMedia ys).lookup k)) ∧
    (buildVariantMedia [exampleMediaOne, exampleMediaTwo]).lookup "7" =
      some (.str "first.jpg") ∧
    (buildVariantMedia [exampleMediaOne, exampleMediaTwo]).lookup "8" =
      some (.str "first.jpg") := by
  refine ⟨?_, ?_, ?_, by decide, by decide⟩
  · intro variant l hraw hne
    rw [normalizeVariantOptions, hraw]
    dsimp only
    rw [if_pos (by simpa using List.length_pos.2 hne)]
  · intro variant hraw
    rcases hraw with hraw | hraw
    · rw [normalizeVariantOptions, hraw]
    · rw [normalizeVariantOptions, hraw]
      dsimp only
      simp
  · intro xs ys k
    rw [buildVariantMedia, List.foldl_append]
    exact buildVariantMediaAux_lookup k ys (xs.foldl applyMediaEntry [])
      (by
        have := buildVariantMedia_truthy xs
        rwa [buildVariantMedia] at this)

/-! ## The needs-interactive-picker flag -/

theorem append_head_lt {a : String} (b : String)
    (h : a.toList.head? = some '<') : (a ++ b).toList.head? = some '<' := by
  have hd : (a ++ b).toList = a.toList ++ b.toList := String.data_append a b
  rw [hd]
  cases hl : a.toList with
  | nil => rw [hl] at h; cases h
  | cons c t =>
    rw [hl] at h
    simp only [List.head?_cons, Option.some.injEq] at h
    simp [h]

theorem buildVariantPickerHtml_head (pd : ProductData) (item : WishlistItem)
    (sv : ProductVariant) :
    (buildVariantPickerHtml pd item sv).toList.head? = some '<' := by
  rw [buildVariantPickerHtml]
  by_cases hc : pd.options.length = 0 ∨ pd.variants.length = 0
  · rw [if_pos hc]
    rfl
  · rw [if_neg hc]
    dsimp only
    exact append_head_lt _ (append_head_lt _ (append_head_lt _ rfl))

theorem jsTrim_length_pos {s : String} (h : s.toList.head? = some '<') :
    (jsTrim s).length > 0 := by
  rw [jsTrim]
  obtain ⟨t, ht⟩ : ∃ t, s.toList = '<' :: t := by
    cases hl : s.toList with
    | nil => rw [hl] at h; cases h
    | cons c t =>
      rw [hl] at h
      simp only [List.head?_cons, Option.some.injEq] at h
      exact ⟨t, by rw [h]⟩
  rw [ht]
  have h1 : ('<' :: t).dropWhile isJsWhitespace = '<' :: t := by
    rw [List.dropWhile_cons, if_neg]
    decide
  rw [h1]
  have h2 : ('<' :: t).reverse.dropWhile isJsWhitespace ≠ [] := by
    intro hall
    rw [List.dropWhile_eq_nil_iff] at hall
    have := hall '<' (by simp)
    revert this
    decide
  show (List.reverse _).length > 0
  rw [List.length_reverse]
  exact List.length_pos.2 h2

/-- A product with an available variant but an empty `options` list. -/
def exampleNoOptionsPD : ProductData :=
  { handle := "h", url := none, options := [],
    variants := [exampleVariant 1 "A" "Red"], featuredImage := none,
    featuredMedia := none, images := none, variantMedia := none }

/-- C8 counterexample: for a product with no options but an available
selected variant, `buildVariantPickerHtml` returns the non-empty
"unavailable" placeholder, so the needs-interactive-picker flag is `true`
even though the product has no options, contradicting the claim. -/
theorem pickerFlag_true_with_no_options :
    exampleNoOptionsPD.options = [] ∧
      shouldInitVariantPickerOf (some exampleNoOptionsPD) exampleItemA
        = true := by
  constructor
  · rfl
  · decide

/-- C8 (amended): the needs-interactive-picker flag is `true` exactly when
product data resolved, a variant was selected, and that variant is
available — `buildVariantPickerHtml` always renders non-blank markup (a
placeholder paragraph when options or variants are missing), so the flag
does not additionally require a multi-option product. -/
theorem pickerFlag_iff :
    ∀ (productData : Option ProductData) (item : WishlistItem),
      shouldInitVariantPickerOf productData item = true ↔
        ∃ pd sv, productData = some pd ∧
          prepareSelectedVariant pd.variants item.variant_id = some sv ∧
          sv.available = true := by
  intro pd? item
  cases pd? with
  | none => simp [shouldInitVariantPickerOf]
  | some pd =>
    rw [shouldInitVariantPickerOf]
    cases hsel : prepareSelectedVariant pd.variants item.variant_id with
    | none =>
      dsimp only
      simp [hsel]
    | some sv =>
      dsimp only
      cases hav : sv.available with
      | false =>
        simp only [Bool.false_eq_true, if_false]
        constructor
        · intro hfalse; cases hfalse
        · rintro ⟨pd', sv', heq, hsel', hav'⟩
          cases heq
          rw [hsel'] at hsel
          cases hsel
          rw [hav'] at hav
          cases hav
      | true =>
        simp only [if_true]
        have hlen := jsTrim_length_pos (buildVariantPickerHtml_head pd item sv)
        simp only [decide_eq_true_eq]
        exact ⟨fun _ => ⟨pd, sv, rfl, hsel, hav⟩, fun _ => hlen⟩

/-! ## Soundness of the HTML escaping -/

/-- A raw special character that must not survive escaping (`&` is handled
separately: it may appear only as the start of an entity). -/
def isRawSpecial (c : Char) : Bool :=
  c == '<' || c == '>' || c == '"' || c == '\''

/-- The five entity tails that may follow a `&` in escaped output. -/
def entityTails : List (List Char) :=
  ["amp;".toList, "lt;".toList, "gt;".toList, "quot;".toList, "#39;".toList]

/-- Scans a character list: every `&` must start one of the five entities. -/
def ampOk : List Char → Bool
  | [] => true
  | c :: rest =>
    if c = '&' then
      (entityTails.any fun t => t.isPrefixOf rest) && ampOk rest
    else ampOk rest

/-- The escaped-output soundness predicate: no raw `<`, `>`, `"`, `'`
anywhere, and every `&` begins an HTML entity. -/
def escapedSound (s : String) : Prop :=
  (∀ c ∈ s.toList, isRawSpecial c = false) ∧ ampOk s.toList = true

theorem toList_mk (l : List Char) : (String.mk l).toList = l := rfl

theorem isPrefixOf_append_self (t r : List Char) :
    t.isPrefixOf (t ++ r) = true := by
  induction t with
  | nil => simp
  | cons c t ih => simp [List.isPrefixOf, ih]

theorem noAmp_ampOk (l : List Char) :
    ∀ rest : List Char, (∀ c ∈ l, c ≠ '&') →
      ampOk (l ++ rest) = ampOk rest := by
  induction l with
  | nil => intro rest _; rfl
  | cons c l ih =>
    intro rest h
    have hc : c ≠ '&' := h c (by simp)
    simp only [List.cons_append, ampOk]
    rw [if_neg hc]
    exact ih rest fun x hx => h x (by simp [hx])

theorem ampOk_amp_block (tl : List Char) (htl : tl ∈ entityTails)
    (hnoamp : ∀ c ∈ tl, c ≠ '&') (rest : List Char) :
    ampOk ('&' :: (tl ++ rest)) = ampOk rest := by
  simp only [ampOk, if_true]
  have hpre : (entityTails.any fun t => t.isPrefixOf (tl ++ rest)) = true :=
    List.any_eq_true.2 ⟨tl, htl, isPrefixOf_append_self tl rest⟩
  rw [hpre, Bool.true_and]
  exact noAmp_ampOk tl rest hnoamp

theorem ampOk_escChar (c : Char) (rest : List Char) :
    ampOk (escChar c ++ rest) = ampOk rest := by
  rw [escChar]
  by_cases h1 : c = '&'
  · rw [if_pos h1]
    exact ampOk_amp_block "amp;".toList (by decide) (by decide) rest
  rw [if_neg h1]
  by_cases h2 : c = '<'
  · rw [if_pos h2]
    exact ampOk_amp_block "lt;".toList (by decide) (by decide) rest
  rw [if_neg h2]
  by_cases h3 : c = '>'
  · rw [if_pos h3]
    exact ampOk_amp_block "gt;".toList (by decide) (by decide) rest
  rw [if_neg h3]
  by_cases h4 : c = '"'
  · rw [if_pos h4]
    exact ampOk_amp_block "quot;".toList (by decide) (by decide) rest
  rw [if_neg h4]
  by_cases h5 : c = '\''
  · rw [if_pos h5]
    exact ampOk_amp_block "#39;".toList (by decide) (by decide) rest
  rw [if_neg h5]
  show ampOk (c :: rest) = ampOk rest
  simp only [ampOk]
  rw [if_neg h1]

theorem ampOk_flatMap (l : List Char) : ampOk (l.flatMap escChar) = true := by
  induction l with
  | nil => rfl
  | cons c l ih =>
    rw [List.flatMap_cons, ampOk_escChar]
    exact ih

theorem noSpecial_escChar (c : Char) :
    ∀ x ∈ escChar c, isRawSpecial x = false := by
  rw [escChar]
  by_cases h1 : c = '&'
  · rw [if_pos h1]; decide
  rw [if_neg h1]
  by_cases h2 : c = '<'
  · rw [if_pos h2]; decide
  rw [if_neg h2]
  by_cases h3 : c = '>'
  · rw [if_pos h3]; decide
  rw [if_neg h3]
  by_cases h4 : c = '"'
  · rw [if_pos h4]; decide
  rw [if_neg h4]
  by_cases h5 : c = '\''
  · rw [if_pos h5]; decide
  rw [if_neg h5]
  intro x hx
  simp only [List.mem_singleton] at hx
  subst hx
  simp [isRawSpecial, h2, h3, h4, h5]

theorem noSpecial_flatMap (l : List Char) :
    ∀ x ∈ l.flatMap escChar, isRawSpecial x = false := by
  intro x hx
  obtain ⟨c, -, hc⟩ := List.mem_flatMap.1 hx
  exact noSpecial_escChar c x hc

theorem escSingle (c : Char) :
    ((((((if c = '&' then "&amp;".toList else [c]).flatMap
      fun x => if x = '<' then "&lt;".toList else [x]).flatMap
      fun x => if x = '>' then "&gt;".toList else [x]).flatMap
      fun x => if x = '"' then "&quot;".toList else [x]).flatMap
      fun x => if x = '\'' then "&#39;".toList else [x]))
      = escChar c := by
  by_cases h1 : c = '&'
  · subst h1; rfl
  by_cases h2 : c = '<'
  · subst h2; rfl
  by_cases h3 : c = '>'
  · subst h3; rfl
  by_cases h4 : c = '"'
  · subst h4; rfl
  by_cases h5 : c = '\''
  · subst h5; rfl
  rw [if_neg h1]
  simp only [List.flatMap_cons, List.flatMap_nil, List.append_nil]
  rw [if_neg h2]
  simp only [List.flatMap_cons, List.flatMap_nil, List.append_nil]
  rw [if_neg h3]
  simp only [List.flatMap_cons, List.flatMap_nil, List.append_nil]
  rw [if_neg h4]
  simp only [List.flatMap_cons, List.flatMap_nil, List.append_nil]
  rw [if_neg h5]
  rw [escChar, if_neg h1, if_neg h2, if_neg h3, if_neg h4, if_neg h5]

theorem escapeChain_eq (l : List Char) :
    ((((l.flatMap fun x => if x = '&' then "&amp;".toList else [x]).flatMap
      fun x => if x = '<' then "&lt;".toList else [x]).flatMap
      fun x => if x = '>' then "&gt;".toList else [x]).flatMap
      fun x => if x = '"' then "&quot;".toList else [x]).flatMap
      (fun x => if x = '\'' then "&#39;".toList else [x])
      = l.flatMap escChar := by
  induction l with
  | nil => rfl
  | cons c l ih =>
    simp only [List.flatMap_cons, List.flatMap_append]
    rw [ih, escSingle, ← List.flatMap_cons]

theorem escapeHtmlString_eq (s : String) :
    escapeHtmlString s = String.mk (s.toList.flatMap escChar) := by
  rw [escapeHtmlString, replaceAllChar, replaceAllChar, replaceAllChar,
    replaceAllChar, replaceAllChar, toList_mk, toList_mk, toList_mk,
    toList_mk, escapeChain_eq]

theorem escapeHtmlString_sound (s : String) :
    escapedSound (escapeHtmlString s) := by
  rw [escapedSound, escapeHtmlString_eq, toList_mk]
  exact ⟨noSpecial_flatMap _, ampOk_flatMap _⟩

set_option maxHeartbeats 1000000 in
/-- C9: `escapeHtml` maps `undefined` and `null` to the empty string and
escapes every other value; its output never contains a raw `<`, `>`, `"`
or `'`, and every `&` in it starts an HTML entity; and each of the values
substituted for the item template placeholders (`[[item_key]]`, `[[id]]`,
`[[title]]`, `[[image]]`, `[[url]]`, `[[price]]`, `[[variant_id]]`,
`[[add_to_cart_text]]`) is `escapeHtml` applied to the raw value, whatever
the intermediate image/url/price strings evaluate to — so every injected
string satisfies the same soundness predicate. -/
theorem escapeHtml_substitutions_sound :
    escapeHtml none = "" ∧ escapeHtml (some .null) = "" ∧
    (∀ v : Option Json, escapedSound (escapeHtml v)) ∧
    (∀ (item : WishlistItem)
        (imageUrl galleryHref price addToCartText : String),
      ∀ p ∈ wishlistItemSafeValues item imageUrl galleryHref price
          addToCartText,
        escapedSound p.2) := by
  have hsound : ∀ v : Option Json, escapedSound (escapeHtml v) := by
    intro v
    cases v with
    | none => exact ⟨(fun c hc => nomatch hc), rfl⟩
    | some j =>
      cases j with
      | null => exact ⟨(fun c hc => nomatch hc), rfl⟩
      | bool b => exact escapeHtmlString_sound (jsToString (.bool b))
      | num n => exact escapeHtmlString_sound (jsToString (.num n))
      | str s => exact escapeHtmlString_sound (jsToString (.str s))
      | arr xs => exact escapeHtmlString_sound (jsToString (.arr xs))
      | obj fs => exact escapeHtmlString_sound (jsToString (.obj fs))
  refine ⟨rfl, rfl, hsound, ?_⟩
  intro item imageUrl galleryHref price addToCartText p hp
  simp only [wishlistItemSafeValues, List.mem_cons, List.not_mem_nil,
    or_false] at hp
  rcases hp with rfl | rfl | rfl | rfl | rfl | rfl | rfl | rfl <;>
    exact hsound _

end Wishlist
